import Mathlib

/-
  Verification development for the clawdbot gateway node-invocation broker.

  The registry (src/gateway/node-registry.ts) is embedded as pure functions
  over an explicit RegistryState.  JS Map objects become association lists
  with JS Map semantics (set on an existing key updates in place, set on a
  fresh key appends, delete filters).  Promise resolution is recorded in an
  append-only log of outcomes keyed by request id: resolve(v) is logged as
  Outcome.value v, reject(Error(m)) as Outcome.thrown m.  Timers are
  recorded as the set of request ids whose one-shot timer is armed.
  External library calls (sha256 digests utf8 decoding, base64 decoding)
  are abstracted: chunk data arrives already base64-decoded as a byte list,
  and the digest and utf8 decoders are explicit function parameters.
-/

namespace Clawdbot

/-- JS Map.get on an association list. -/
def mget (k : String) : List (String × α) → Option α
  | [] => none
  | (k2, v) :: rest => if k2 = k then some v else mget k rest

/-- JS Map.set on an association list: update in place, or append if fresh. -/
def mset (k : String) (v : α) : List (String × α) → List (String × α)
  | [] => [(k, v)]
  | (k2, v2) :: rest => if k2 = k then (k, v) :: rest else (k2, v2) :: mset k v rest

/-- JS Map.delete on an association list. -/
def mdel (k : String) (l : List (String × α)) : List (String × α) :=
  l.filter (fun p => p.1 ≠ k)

/-- JS String.toLowerCase, as an executable character map. -/
def jsToLower (s : String) : String :=
  String.mk (s.data.map Char.toLower)

/-- The client block of the connect frame (connect.client in the source). -/
structure ConnectClientInfo where
  id : String
  displayName : Option String := none
  platform : Option String := none
  version : Option String := none
  deviceFamily : Option String := none
  modelIdentifier : Option String := none
deriving Repr, DecidableEq

/-- The connect frame carried by a gateway ws client.  Dynamically-typed
fields that the source guards with Array.isArray / typeof checks are
modelled as Option (absent means the guard fails and the default is used).
deviceId models connect.device?.id. -/
structure ConnectInfo where
  deviceId : Option String := none
  client : ConnectClientInfo
  caps : Option (List String) := none
  commands : Option (List String) := none
  permissions : Option (List (String × Bool)) := none
  pathEnv : Option String := none
  coreVersion : Option String := none
  uiVersion : Option String := none
deriving Repr, DecidableEq

/-- A gateway ws client.  sendOk models whether client.socket.send succeeds
(the source wraps it in try/catch). -/
structure GatewayWsClient where
  connect : ConnectInfo
  connId : String
  sendOk : Bool := true
deriving Repr, DecidableEq

/-- NodeSession from src/gateway/node-registry.ts. -/
structure NodeSession where
  nodeId : String
  connId : String
  client : GatewayWsClient
  displayName : Option String
  platform : Option String
  version : Option String
  coreVersion : Option String
  uiVersion : Option String
  deviceFamily : Option String
  modelIdentifier : Option String
  remoteIp : Option String
  caps : List String
  commands : List String
  permissions : Option (List (String × Bool))
  pathEnv : Option String
  connectedAtMs : Int
deriving Repr, DecidableEq

/-- PendingInvoke from the source; the resolver capability and the timer are
modelled in RegistryState (resolutions log and activeTimers). -/
structure PendingInvoke where
  nodeId : String
  command : String
deriving Repr, DecidableEq

/-- PendingInvokeTransfer from the source.  hashed is the byte stream fed to
the incremental sha256 hasher; chunks is the ordered list of decoded
chunk buffers. -/
structure PendingInvokeTransfer where
  nodeId : String
  totalBytes : Int
  chunkBytes : Int
  chunkCount : Int
  nextIndex : Int
  bytesReceived : Int
  sha256 : String
  hashed : List Nat
  chunks : List (List Nat)
deriving Repr, DecidableEq

/-- error objects on NodeInvokeResult. -/
structure ErrInfo where
  code : Option String := none
  message : Option String := none
deriving Repr, DecidableEq

/-- NodeInvokeResult from the source.  The dynamically-typed payload field is
kept opaque as Option String; payloadJSON none models null/undefined. -/
structure NodeInvokeResult where
  ok : Bool
  payload : Option String := none
  payloadJSON : Option String := none
  error : Option ErrInfo := none
deriving Repr, DecidableEq

/-- How a pending invoke resolver fired: resolve(v) or reject(Error(m)). -/
inductive Outcome
  | value (r : NodeInvokeResult)
  | thrown (msg : String)
deriving Repr, DecidableEq

/-- InvokeTransferFailureReason from the source. -/
inductive TransferFailureReason
  | unknownInvokeId
  | payloadTooLarge
  | chunkOutOfOrder
  | chunkBytesMismatch
  | hashMismatch
deriving Repr, DecidableEq

/-- InvokeTransferResult from the source. -/
inductive InvokeTransferResult
  | ok
  | err (reason : TransferFailureReason) (message : String)
deriving Repr, DecidableEq

/-- The mutable state of a NodeRegistry instance, plus the observational
log of resolver firings (resolutions, most recent first) and the set of
request ids with an armed invoke timer (activeTimers). -/
structure RegistryState where
  nodesById : List (String × NodeSession) := []
  nodesByConn : List (String × String) := []
  pendingInvokes : List (String × PendingInvoke) := []
  invokeTransfers : List (String × PendingInvokeTransfer) := []
  inflightBytes : Int := 0
  activeTimers : List String := []
  resolutions : List (String × Outcome) := []
deriving Repr, DecidableEq

def emptyRegistry : RegistryState := {}

/-- pending.resolve(r) : append to the outcome log. -/
def fireResolve (id : String) (r : NodeInvokeResult) (s : RegistryState) : RegistryState :=
  { s with resolutions := (id, Outcome.value r) :: s.resolutions }

/-- pending.reject(new Error(msg)) : append to the outcome log. -/
def fireReject (id : String) (msg : String) (s : RegistryState) : RegistryState :=
  { s with resolutions := (id, Outcome.thrown msg) :: s.resolutions }

/-- clearTimeout(pending.timer) for the timer owned by request id. -/
def cancelTimer (id : String) (s : RegistryState) : RegistryState :=
  { s with activeTimers := s.activeTimers.filter (fun t => t ≠ id) }

/-- NodeRegistry.register.  now models Date.now(). -/
def register (client : GatewayWsClient) (remoteIp : Option String) (now : Int)
    (s : RegistryState) : NodeSession × RegistryState :=
  let connect := client.connect
  let nodeId := connect.deviceId.getD connect.client.id
  let caps := connect.caps.getD []
  let commands := connect.commands.getD []
  let permissions := connect.permissions
  let pathEnv := connect.pathEnv
  let session : NodeSession :=
    { nodeId := nodeId
      connId := client.connId
      client := client
      displayName := connect.client.displayName
      platform := connect.client.platform
      version := connect.client.version
      coreVersion := connect.coreVersion
      uiVersion := connect.uiVersion
      deviceFamily := connect.client.deviceFamily
      modelIdentifier := connect.client.modelIdentifier
      remoteIp := remoteIp
      caps := caps
      commands := commands
      permissions := permissions
      pathEnv := pathEnv
      connectedAtMs := now }
  (session,
    { s with
        nodesById := mset nodeId session s.nodesById
        nodesByConn := mset client.connId nodeId s.nodesByConn })

/-- NodeRegistry.clearInvokeTransfer. -/
def clearInvokeTransfer (id : String) (s : RegistryState) : RegistryState :=
  match mget id s.invokeTransfers with
  | none => s
  | some transfer =>
    { s with
        invokeTransfers := mdel id s.invokeTransfers
        inflightBytes := max 0 (s.inflightBytes - transfer.totalBytes) }

/-- NodeRegistry.unregister. -/
def unregister (connId : String) (s : RegistryState) : Option String × RegistryState :=
  match mget connId s.nodesByConn with
  | none => (none, s)
  | some nodeId =>
    let s1 := { s with
        nodesByConn := mdel connId s.nodesByConn
        nodesById := mdel nodeId s.nodesById }
    let matchingInvokes := s1.pendingInvokes.filter (fun p => p.2.nodeId = nodeId)
    let s2 := matchingInvokes.foldl
      (fun st p =>
        let st := cancelTimer p.1 st
        let st := fireReject p.1 ("node disconnected (" ++ p.2.command ++ ")") st
        { st with pendingInvokes := mdel p.1 st.pendingInvokes })
      s1
    let matchingTransfers := s2.invokeTransfers.filter (fun p => p.2.nodeId = nodeId)
    let s3 := matchingTransfers.foldl (fun st p => clearInvokeTransfer p.1 st) s2
    (some nodeId, s3)

/-- parameters of NodeRegistry.handleInvokeResult. -/
structure InvokeResultParams where
  id : String
  nodeId : String
  ok : Bool
  payload : Option String := none
  payloadJSON : Option String := none
  error : Option ErrInfo := none
deriving Repr, DecidableEq

/-- NodeRegistry.handleInvokeResult. -/
def handleInvokeResult (p : InvokeResultParams) (s : RegistryState) :
    Bool × RegistryState :=
  match mget p.id s.pendingInvokes with
  | none => (false, s)
  | some pending =>
    if pending.nodeId ≠ p.nodeId then (false, s)
    else
      let s1 := cancelTimer p.id s
      let s2 := { s1 with pendingInvokes := mdel p.id s1.pendingInvokes }
      let s3 := clearInvokeTransfer p.id s2
      let s4 := fireResolve p.id
        { ok := p.ok
          payload := p.payload
          payloadJSON := p.payloadJSON
          error := p.error } s3
      (true, s4)

/-- NodeRegistry.resolveInvokeError. -/
def resolveInvokeError (id nodeId : String) (error : ErrInfo) (s : RegistryState) :
    RegistryState :=
  (handleInvokeResult
    { id := id, nodeId := nodeId, ok := false, error := some error } s).2

/-- parameters of NodeRegistry.invoke. -/
structure InvokeParams where
  nodeId : String
  command : String
  timeoutMs : Option Int := none
deriving Repr, DecidableEq

/-- The synchronous part of NodeRegistry.invoke.  requestId models the fresh
randomUUID.  An immediate failure is returned as some result; none means a
PendingInvoke was installed and the caller awaits a logged outcome. -/
def invoke (requestId : String) (p : InvokeParams) (s : RegistryState) :
    Option NodeInvokeResult × RegistryState :=
  match mget p.nodeId s.nodesById with
  | none =>
    (some { ok := false,
            error := some { code := some "NOT_CONNECTED",
                            message := some "node not connected" } }, s)
  | some node =>
    if !node.client.sendOk then
      (some { ok := false,
              error := some { code := some "UNAVAILABLE",
                              message := some "failed to send invoke to node" } }, s)
    else
      (none,
        { s with
            pendingInvokes :=
              mset requestId { nodeId := p.nodeId, command := p.command } s.pendingInvokes
            activeTimers := requestId :: s.activeTimers.filter (fun t => t ≠ requestId) })

/-- The invoke timeout callback: fires only while its timer is armed; deletes
the pending invoke, tears down any associated transfer, resolves TIMEOUT. -/
def fireInvokeTimeout (requestId : String) (s : RegistryState) : RegistryState :=
  if requestId ∈ s.activeTimers then
    let s1 := cancelTimer requestId s
    let s2 := { s1 with pendingInvokes := mdel requestId s1.pendingInvokes }
    let s3 := clearInvokeTransfer requestId s2
    fireResolve requestId
      { ok := false,
        error := some { code := some "TIMEOUT",
                        message := some "node invoke timed out" } } s3
  else s

/-- parameters of NodeRegistry.startInvokeResultTransfer. -/
structure StartTransferParams where
  id : String
  nodeId : String
  totalBytes : Int
  chunkBytes : Int
  chunkCount : Int
  sha256 : String
  maxInvokeResultBytes : Int
  maxInflightBytes : Int
deriving Repr, DecidableEq

/-- NodeRegistry.startInvokeResultTransfer. -/
def startInvokeResultTransfer (p : StartTransferParams) (s : RegistryState) :
    InvokeTransferResult × RegistryState :=
  let pendingOk := match mget p.id s.pendingInvokes with
    | none => false
    | some pending => pending.nodeId = p.nodeId
  if !pendingOk then
    (InvokeTransferResult.err TransferFailureReason.unknownInvokeId "unknown invoke id", s)
  else if (mget p.id s.invokeTransfers).isSome then
    (InvokeTransferResult.err TransferFailureReason.chunkOutOfOrder "chunk out of order",
      resolveInvokeError p.id p.nodeId
        { code := some "INVALID_REQUEST", message := some "chunk out of order" } s)
  else if p.totalBytes > p.maxInvokeResultBytes then
    (InvokeTransferResult.err TransferFailureReason.payloadTooLarge "payload too large",
      resolveInvokeError p.id p.nodeId
        { code := some "INVALID_REQUEST", message := some "payload too large" } s)
  else if s.inflightBytes + p.totalBytes > p.maxInflightBytes then
    (InvokeTransferResult.err TransferFailureReason.payloadTooLarge "payload too large",
      resolveInvokeError p.id p.nodeId
        { code := some "INVALID_REQUEST", message := some "payload too large" } s)
  else
    (InvokeTransferResult.ok,
      { s with
          inflightBytes := s.inflightBytes + p.totalBytes
          invokeTransfers := mset p.id
            { nodeId := p.nodeId
              totalBytes := p.totalBytes
              chunkBytes := p.chunkBytes
              chunkCount := p.chunkCount
              nextIndex := 0
              bytesReceived := 0
              sha256 := jsToLower p.sha256
              hashed := []
              chunks := [] } s.invokeTransfers })

/-- parameters of NodeRegistry.handleInvokeResultChunk; data is the
base64-decoded byte buffer of the data field. -/
structure ChunkParams where
  id : String
  nodeId : String
  index : Int
  data : List Nat
  bytes : Int
deriving Repr, DecidableEq

/-- Buffer.concat(list, totalLength): concatenation truncated, or zero filled,
to totalLength bytes. -/
def bufferConcat (chunks : List (List Nat)) (totalLength : Int) : List Nat :=
  let joined := chunks.flatten
  let n := totalLength.toNat
  joined.take n ++ List.replicate (n - joined.length) 0

/-- NodeRegistry.handleInvokeResultChunk.  sha256Hex abstracts the sha256 hex
digest of a byte stream; utf8Decode abstracts Buffer.toString(utf8). -/
def handleInvokeResultChunk (sha256Hex : List Nat → String)
    (utf8Decode : List Nat → String) (p : ChunkParams) (s : RegistryState) :
    InvokeTransferResult × RegistryState :=
  let transferOk := match mget p.id s.invokeTransfers with
    | none => false
    | some transfer => transfer.nodeId = p.nodeId
  match mget p.id s.invokeTransfers with
  | none =>
    let s1 := match mget p.id s.pendingInvokes with
      | some pending =>
        if pending.nodeId = p.nodeId then
          resolveInvokeError p.id p.nodeId
            { code := some "INVALID_REQUEST", message := some "unknown invoke id" } s
        else s
      | none => s
    (InvokeTransferResult.err TransferFailureReason.unknownInvokeId "unknown invoke id", s1)
  | some transfer =>
    if !transferOk then
      let s1 := match mget p.id s.pendingInvokes with
        | some pending =>
          if pending.nodeId = p.nodeId then
            resolveInvokeError p.id p.nodeId
              { code := some "INVALID_REQUEST", message := some "unknown invoke id" } s
          else s
        | none => s
      (InvokeTransferResult.err TransferFailureReason.unknownInvokeId "unknown invoke id", s1)
    else if p.index ≠ transfer.nextIndex ∨ p.index ≥ transfer.chunkCount then
      (InvokeTransferResult.err TransferFailureReason.chunkOutOfOrder "chunk out of order",
        resolveInvokeError p.id p.nodeId
          { code := some "INVALID_REQUEST", message := some "chunk out of order" } s)
    else
      let decoded := p.data
      if (decoded.length : Int) ≠ p.bytes then
        (InvokeTransferResult.err TransferFailureReason.chunkBytesMismatch
            "chunk bytes mismatch",
          resolveInvokeError p.id p.nodeId
            { code := some "INVALID_REQUEST", message := some "chunk bytes mismatch" } s)
      else
        let nextBytes := transfer.bytesReceived + (decoded.length : Int)
        if nextBytes > transfer.totalBytes then
          (InvokeTransferResult.err TransferFailureReason.chunkBytesMismatch
              "chunk bytes mismatch",
            resolveInvokeError p.id p.nodeId
              { code := some "INVALID_REQUEST", message := some "chunk bytes mismatch" } s)
        else
          let transfer2 : PendingInvokeTransfer :=
            { transfer with
                bytesReceived := nextBytes
                nextIndex := transfer.nextIndex + 1
                hashed := transfer.hashed ++ decoded
                chunks := transfer.chunks ++ [decoded] }
          let s1 := { s with invokeTransfers := mset p.id transfer2 s.invokeTransfers }
          if transfer2.nextIndex = transfer2.chunkCount then
            if transfer2.bytesReceived ≠ transfer2.totalBytes then
              (InvokeTransferResult.err TransferFailureReason.chunkBytesMismatch
                  "chunk bytes mismatch",
                resolveInvokeError p.id p.nodeId
                  { code := some "INVALID_REQUEST",
                    message := some "chunk bytes mismatch" } s1)
            else
              let digest := jsToLower (sha256Hex transfer2.hashed)
              if digest ≠ transfer2.sha256 then
                (InvokeTransferResult.err TransferFailureReason.hashMismatch "hash mismatch",
                  resolveInvokeError p.id p.nodeId
                    { code := some "INVALID_REQUEST", message := some "hash mismatch" } s1)
              else
                let payloadJSON :=
                  utf8Decode (bufferConcat transfer2.chunks transfer2.totalBytes)
                (InvokeTransferResult.ok,
                  (handleInvokeResult
                    { id := p.id, nodeId := p.nodeId, ok := true,
                      payloadJSON := some payloadJSON } s1).2)
          else
            (InvokeTransferResult.ok, s1)

/-- parameters of NodeRegistry.abortInvokeResultTransfer. -/
structure AbortParams where
  id : String
  nodeId : String
  error : Option ErrInfo := none
deriving Repr, DecidableEq

/-- NodeRegistry.abortInvokeResultTransfer. -/
def abortInvokeResultTransfer (p : AbortParams) (s : RegistryState) :
    Bool × RegistryState :=
  let pendingOk := match mget p.id s.pendingInvokes with
    | none => false
    | some pending => pending.nodeId = p.nodeId
  if !pendingOk then
    match mget p.id s.invokeTransfers with
    | some transfer =>
      if transfer.nodeId = p.nodeId then (false, clearInvokeTransfer p.id s)
      else (false, s)
    | none => (false, s)
  else
    (true,
      (handleInvokeResult
        { id := p.id, nodeId := p.nodeId, ok := false,
          error := some (p.error.getD
            { code := some "UNAVAILABLE", message := some "node invoke aborted" }) } s).2)

/-- One registry operation, for reasoning about arbitrary interleavings. -/
inductive RegOp
  | regOp (client : GatewayWsClient) (remoteIp : Option String) (now : Int)
  | unregOp (connId : String)
  | invokeOp (requestId : String) (p : InvokeParams)
  | timeoutOp (requestId : String)
  | resultOp (p : InvokeResultParams)
  | startOp (p : StartTransferParams)
  | chunkOp (p : ChunkParams)
  | abortOp (p : AbortParams)
deriving Repr, DecidableEq

/-- The state transition of one registry operation. -/
def step (sha256Hex utf8Decode : List Nat → String) :
    RegOp → RegistryState → RegistryState
  | RegOp.regOp c r now, s => (register c r now s).2
  | RegOp.unregOp connId, s => (unregister connId s).2
  | RegOp.invokeOp requestId p, s => (invoke requestId p s).2
  | RegOp.timeoutOp requestId, s => fireInvokeTimeout requestId s
  | RegOp.resultOp p, s => (handleInvokeResult p s).2
  | RegOp.startOp p, s => (startInvokeResultTransfer p s).2
  | RegOp.chunkOp p, s => (handleInvokeResultChunk sha256Hex utf8Decode p s).2
  | RegOp.abortOp p, s => (abortInvokeResultTransfer p s).2

/-- Run a sequence of registry operations from a state. -/
def run (sha256Hex utf8Decode : List Nat → String) (ops : List RegOp)
    (s : RegistryState) : RegistryState :=
  ops.foldl (fun st op => step sha256Hex utf8Decode op st) s

/-
  Exec-host client (src/infra/exec-host.ts, requestExecHostViaSocket).
  The event-driven socket client is embedded as a state machine: the data
  handler processing one parsed line, the timer callbacks, and the error
  handler are each a transition.  JSON values from the wire keep only their
  JS truthiness plus an opaque tag.
-/

/-- ExecHostPendingPayload from the source. -/
structure ExecPendingPayload where
  reason : Option String := none
  timeoutMs : Option Int := none
deriving Repr, DecidableEq

/-- A dynamically-typed JSON value from the wire, reduced to its JS
truthiness and an opaque representation. -/
structure JsVal where
  truthy : Bool
  tag : String := ""
deriving Repr, DecidableEq

/-- The parsed ok field of an exec-res line: literally true, literally false,
or anything else (absent or non-boolean). -/
inductive OkField
  | isTrue
  | isFalse
  | otherVal
deriving Repr, DecidableEq

/-- One parsed line from the exec-host socket, already classified by its
type discriminant; lines that fail to parse or carry another type are
otherLine. -/
inductive ExecLine
  | pendingLine (payload : Option ExecPendingPayload)
  | resLine (ok : OkField) (payload : Option JsVal) (error : Option JsVal)
  | otherLine
deriving Repr, DecidableEq

/-- The value an exec-host call resolves with (null is modelled as none one
level up). -/
inductive ExecOutcome
  | okResp (payload : JsVal)
  | errResp (error : JsVal)
  | pendingTimeout (reason : String)
deriving Repr, DecidableEq

/-- Which callback the armed timer runs when it fires. -/
inductive TimerKind
  | base
  | extended
deriving Repr, DecidableEq

/-- An armed one-shot timer: its arming generation, duration, and callback. -/
structure ArmedTimer where
  gen : Nat
  duration : Int
  kind : TimerKind
deriving Repr, DecidableEq

/-- State of one requestExecHostViaSocket call.  resolvedWith none means not
yet resolved; some none means resolved with null.  onPendingCalls logs the
payload of each onPending invocation. -/
structure ExecClientState where
  settled : Bool := false
  pendingReceived : Bool := false
  timerGen : Nat := 1
  armed : Option ArmedTimer := some { gen := 0, duration := 20000, kind := TimerKind.base }
  onPendingCalls : List (Option ExecPendingPayload) := []
  resolvedWith : Option (Option ExecOutcome) := none
  socketDestroyed : Bool := false
deriving Repr, DecidableEq

/-- The initial state right after the request line is written: only the base
timer is armed. -/
def execInit (baseTimeoutMs : Int) : ExecClientState :=
  { armed := some { gen := 0, duration := baseTimeoutMs, kind := TimerKind.base } }

/-- The finish closure: exactly-once resolution, cancels whatever timer is
armed, destroys the socket, resolves with the value. -/
def execFinish (v : Option ExecOutcome) (st : ExecClientState) : ExecClientState :=
  if st.settled then st
  else { st with
           settled := true
           armed := none
           socketDestroyed := true
           resolvedWith := some v }

/-- The outcome an exec-res line resolves with: ok strictly true plus truthy
payload, ok strictly false plus truthy error, else null. -/
def execResOutcome (ok : OkField) (payload error : Option JsVal) : Option ExecOutcome :=
  match ok, payload, error with
  | OkField.isTrue, some p, _ =>
    if p.truthy then some (ExecOutcome.okResp p) else none
  | OkField.isFalse, _, some e =>
    if e.truthy then some (ExecOutcome.errResp e) else none
  | _, _, _ => none

/-- The data handler on one parsed line.  hasOnPending models whether the
caller supplied an onPending callback. -/
def execHandleLine (hasOnPending : Bool) (line : ExecLine) (st : ExecClientState) :
    ExecClientState :=
  match line with
  | ExecLine.pendingLine payload =>
    let st1 := { st with pendingReceived := true }
    let extendedTimeout := (payload.bind (fun q => q.timeoutMs)).getD 300000
    let st2 := { st1 with
        armed := some { gen := st1.timerGen, duration := extendedTimeout,
                        kind := TimerKind.extended }
        timerGen := st1.timerGen + 1 }
    if hasOnPending then { st2 with onPendingCalls := st2.onPendingCalls ++ [payload] }
    else st2
  | ExecLine.resLine ok payload error =>
    execFinish (execResOutcome ok payload error) { st with armed := none }
  | ExecLine.otherLine => st

/-- The fire of the timer armed at generation gen (a no-op if that timer has
been cancelled or replaced).  The base timer callback checks
pendingReceived; the extended timer callback always reports
approval-timeout. -/
def execTimerFire (gen : Nat) (st : ExecClientState) : ExecClientState :=
  match st.armed with
  | some t =>
    if t.gen = gen then
      match t.kind with
      | TimerKind.base =>
        if st.pendingReceived then
          execFinish (some (ExecOutcome.pendingTimeout "approval-timeout")) st
        else
          execFinish none st
      | TimerKind.extended =>
        execFinish (some (ExecOutcome.pendingTimeout "approval-timeout")) st
    else st
  | none => st

/-- The socket error handler: finish(null). -/
def execConnError (st : ExecClientState) : ExecClientState :=
  execFinish none st

/-
  Concrete fixtures used by the closed theorems and witnesses below.
-/

/-- A node client whose connect frame carries client id node-1 on connection
conn-1 (as in the repository test suite). -/
def fixClient1 : GatewayWsClient :=
  { connect := { client := { id := "node-1" } }, connId := "conn-1" }

/-- A second connection, conn-2, presenting the same client id node-1. -/
def fixClient2 : GatewayWsClient :=
  { connect := { client := { id := "node-1" } }, connId := "conn-2" }

/-- Registry holding one session for node-1 on conn-1. -/
def fixRegistered : RegistryState :=
  (register fixClient1 (some "127.0.0.1") 0 emptyRegistry).2

/-- fixRegistered with one outstanding invoke req-1 of command system.run. -/
def fixPendingState : RegistryState :=
  (invoke "req-1" { nodeId := "node-1", command := "system.run" } fixRegistered).2

/-- fixPendingState after a second register of node-1 arriving on conn-2. -/
def fixReplacedState : RegistryState :=
  (register fixClient2 none 5 fixPendingState).2

/-- C1: the claim fails on the code.  Registering a second session for
node-1 on conn-2, while conn-1 already holds node-1 and invoke req-1 is
in flight, leaves the old conn-1 entry in the byConn index, leaves the
old PendingInvoke untouched with its timer still armed, and fires no
failure at all: register performs no unregister of the prior session. -/
theorem C1_register_keeps_prior_session :
    mget "conn-1" fixReplacedState.nodesByConn = some "node-1" ∧
    mget "req-1" fixReplacedState.pendingInvokes =
      some { nodeId := "node-1", command := "system.run" } ∧
    fixReplacedState.activeTimers = ["req-1"] ∧
    fixReplacedState.resolutions = [] := by
  decide

/-- C2: the claim fails on the code.  Unregistering conn-1 while invoke
req-1 is outstanding for node-1 cancels the timer and removes the
pending entry, but the waiting caller is rejected with a thrown Error
(message node disconnected (system.run)); no value resolution carrying
ok false and code NOT_CONNECTED is ever delivered. -/
theorem C2_unregister_rejects_the_caller :
    (unregister "conn-1" fixPendingState).2.resolutions =
      [("req-1", Outcome.thrown "node disconnected (system.run)")] ∧
    (unregister "conn-1" fixPendingState).2.pendingInvokes = [] ∧
    (unregister "conn-1" fixPendingState).2.activeTimers = [] := by
  decide

/-- C3: the claim fails on the code.  After the mutation sequence
register(conn-1, node-1); register(conn-2, node-1) from the empty
registry, byNodeId has one entry while two connIds map to a currently
registered nodeId, so the stated cardinality equation does not hold
after this mutation. -/
theorem C3_index_agreement_broken :
    fixReplacedState.nodesById.length = 1 ∧
    (fixReplacedState.nodesByConn.filter
      (fun p => (mget p.2 fixReplacedState.nodesById).isSome)).length = 2 := by
  decide

/-- A start frame carrying a negative totalBytes of -5 for the outstanding
invoke req-1 (limits 100/100). -/
def fixNegStart : StartTransferParams :=
  { id := "req-1", nodeId := "node-1", totalBytes := -5, chunkBytes := 4,
    chunkCount := 1, sha256 := "AB", maxInvokeResultBytes := 100,
    maxInflightBytes := 100 }

/-- C6 counterexample: startInvokeResultTransfer never checks the sign of
totalBytes, so a start frame declaring totalBytes -5 passes both limit
checks, is accepted, and drives inflightBytes to -5, below zero. -/
theorem C6_counterexample_negative_inflight :
    (startInvokeResultTransfer fixNegStart fixPendingState).1 =
      InvokeTransferResult.ok ∧
    (startInvokeResultTransfer fixNegStart fixPendingState).2.inflightBytes = -5 ∧
    (startInvokeResultTransfer fixNegStart fixPendingState).2.inflightBytes < 0 := by
  decide

/-- A start frame with chunkCount 0 but totalBytes 3, within limits. -/
def fixZeroStart : StartTransferParams :=
  { id := "req-1", nodeId := "node-1", totalBytes := 3, chunkBytes := 1,
    chunkCount := 0, sha256 := "AB", maxInvokeResultBytes := 100,
    maxInflightBytes := 100 }

/-- fixPendingState after accepting the chunkCount-0 start frame. -/
def fixZeroState : RegistryState :=
  (startInvokeResultTransfer fixZeroStart fixPendingState).2

/-- C10 counterexample: with the chunkCount-0 transfer active (accepted, its
3 bytes counted inflight), a direct handleInvokeResult with ok true still
resolves the owning invoke successfully — a resolution path the claim's
enumeration (chunk rejection, timeout, abort, unregister) omits. -/
theorem C10_counterexample_direct_result :
    (startInvokeResultTransfer fixZeroStart fixPendingState).1 =
      InvokeTransferResult.ok ∧
    (mget "req-1" fixZeroState.invokeTransfers).map
      (fun t => t.chunkCount) = some 0 ∧
    fixZeroState.inflightBytes = 3 ∧
    (handleInvokeResult
      { id := "req-1", nodeId := "node-1", ok := true,
        payloadJSON := some "{}" } fixZeroState).2.resolutions =
      [("req-1", Outcome.value { ok := true, payloadJSON := some "{}" })] := by
  decide

/-- An exec-pending line carrying reason awaiting-approval and a 400 ms
extended timeout. -/
def fixPendingLine : ExecLine :=
  ExecLine.pendingLine (some { reason := some "awaiting-approval", timeoutMs := some 400 })

/-- Exec client in the Pending state: base timer 100 ms, one exec-pending
line processed. -/
def fixExecPending1 : ExecClientState :=
  execHandleLine true fixPendingLine (execInit 100)

/-- fixExecPending1 after a second, duplicate exec-pending line. -/
def fixExecPending2 : ExecClientState :=
  execHandleLine true fixPendingLine fixExecPending1

/-- C8 counterexample: a duplicate exec-pending line received in the Pending
state is not ignored: onPending is invoked a second time and the armed
timer is replaced by a freshly armed extended timer. -/
theorem C8_counterexample_duplicate_pending :
    fixExecPending1.onPendingCalls.length = 1 ∧
    fixExecPending2.onPendingCalls.length = 2 ∧
    fixExecPending2.armed ≠ fixExecPending1.armed := by
  decide

/-
  Association list lemmas.
-/

theorem mget_mset_self (k : String) (v : α) :
    ∀ l : List (String × α), mget k (mset k v l) = some v
  | [] => by simp [mget, mset]
  | (k2, v2) :: rest => by
    by_cases h : k2 = k
    · simp [mset, h, mget]
    · simp [mset, h, mget, mget_mset_self k v rest]

theorem mget_mdel_self (k : String) :
    ∀ l : List (String × α), mget k (mdel k l) = none
  | [] => by simp [mget, mdel]
  | (k2, v2) :: rest => by
    by_cases h : k2 = k
    · simpa [mdel, h] using mget_mdel_self k rest
    · simpa [mdel, mget, h] using mget_mdel_self k rest

theorem mget_mem {k : String} {v : α} :
    ∀ {l : List (String × α)}, mget k l = some v → (k, v) ∈ l
  | [], h => by simp [mget] at h
  | (k2, v2) :: rest, h => by
    by_cases hk : k2 = k
    · simp [mget, hk] at h
      simp [hk, h]
    · simp [mget, hk] at h
      exact List.mem_cons_of_mem _ (mget_mem h)

theorem mget_none_notmem {k : String} :
    ∀ {l : List (String × α)}, mget k l = none → k ∉ l.map Prod.fst
  | [], _ => by simp
  | (k2, v2) :: rest, h => by
    by_cases hk : k2 = k
    · simp [mget, hk] at h
    · simp [mget, hk] at h
      have h2 := mget_none_notmem h
      simp only [List.map_cons, List.mem_cons, not_or]
      exact ⟨fun he => hk he.symm, h2⟩

theorem mset_of_mget_none {k : String} {v : α} :
    ∀ {l : List (String × α)}, mget k l = none → mset k v l = l ++ [(k, v)]
  | [], _ => by simp [mset]
  | (k2, v2) :: rest, h => by
    by_cases hk : k2 = k
    · simp [mget, hk] at h
    · simp [mget, hk] at h
      simp [mset, hk, mset_of_mget_none h]

theorem keys_mset_of_mget_some {k : String} {v v0 : α} :
    ∀ {l : List (String × α)}, mget k l = some v0 →
      (mset k v l).map Prod.fst = l.map Prod.fst
  | [], h => by simp [mget] at h
  | (k2, v2) :: rest, h => by
    by_cases hk : k2 = k
    · simp [mset, hk]
    · simp [mget, hk] at h
      simp [mset, hk, keys_mset_of_mget_some h]

theorem mem_mset {k : String} {v : α} {a : String × α} :
    ∀ {l : List (String × α)}, a ∈ mset k v l → a = (k, v) ∨ a ∈ l
  | [], h => by simpa [mset] using h
  | (k2, v2) :: rest, h => by
    by_cases hk : k2 = k
    · simp [mset, hk] at h
      rcases h with h | h
      · exact Or.inl h
      · exact Or.inr (List.mem_cons_of_mem _ h)
    · simp [mset, hk] at h
      rcases h with h | h
      · exact Or.inr (by simp [h])
      · rcases mem_mset h with h2 | h2
        · exact Or.inl h2
        · exact Or.inr (List.mem_cons_of_mem _ h2)

theorem mem_mdel {k : String} {a : String × α} {l : List (String × α)}
    (h : a ∈ mdel k l) : a ∈ l :=
  List.mem_of_mem_filter h

theorem mdel_sublist (k : String) (l : List (String × α)) :
    List.Sublist (mdel k l) l :=
  List.filter_sublist l

theorem mdel_cons (k k2 : String) (v2 : α) (rest : List (String × α)) :
    mdel k ((k2, v2) :: rest) =
      if k2 = k then mdel k rest else (k2, v2) :: mdel k rest := by
  by_cases h : k2 = k <;> simp [mdel, h]

theorem mdel_of_notmem {k : String} :
    ∀ {l : List (String × α)}, k ∉ l.map Prod.fst → mdel k l = l
  | [], _ => by simp [mdel]
  | (k2, v2) :: rest, h => by
    simp at h
    have h1 : k2 ≠ k := fun he => h.1 he.symm
    have h2 := mdel_of_notmem (l := rest) (by simpa using h.2)
    simpa [mdel, h1] using h2

/-
  Total byte accounting over the transfer table.
-/

/-- The sum of totalBytes over a transfer table. -/
def sumTotal (l : List (String × PendingInvokeTransfer)) : Int :=
  (l.map (fun q => q.2.totalBytes)).sum

theorem sumTotal_nil : sumTotal [] = 0 := rfl

theorem sumTotal_cons (a : String × PendingInvokeTransfer) (l) :
    sumTotal (a :: l) = a.2.totalBytes + sumTotal l := by
  simp [sumTotal]

theorem sumTotal_append_single (l) (k : String) (v : PendingInvokeTransfer) :
    sumTotal (l ++ [(k, v)]) = sumTotal l + v.totalBytes := by
  simp [sumTotal]

theorem sumTotal_nonneg :
    ∀ {l : List (String × PendingInvokeTransfer)},
      (∀ q ∈ l, 0 ≤ q.2.totalBytes) → 0 ≤ sumTotal l
  | [], _ => le_refl 0
  | a :: rest, h => by
    have h1 := h a (List.mem_cons_self a rest)
    have h2 := sumTotal_nonneg (fun q hq => h q (List.mem_cons_of_mem a hq))
    rw [sumTotal_cons]
    omega

theorem total_le_sumTotal {k : String} {v : PendingInvokeTransfer} :
    ∀ {l : List (String × PendingInvokeTransfer)}, (k, v) ∈ l →
      (∀ q ∈ l, 0 ≤ q.2.totalBytes) → v.totalBytes ≤ sumTotal l
  | [], h, _ => by simp at h
  | a :: rest, h, hn => by
    rcases List.mem_cons.mp h with h1 | h1
    · have h2 := sumTotal_nonneg (fun q hq => hn q (List.mem_cons_of_mem a hq))
      rw [← h1, sumTotal_cons]
      show v.totalBytes ≤ v.totalBytes + sumTotal rest
      omega
    · have h2 := total_le_sumTotal h1 (fun q hq => hn q (List.mem_cons_of_mem a hq))
      have h3 := hn a (List.mem_cons_self a rest)
      rw [sumTotal_cons]
      omega

theorem sumTotal_mdel {k : String} {v : PendingInvokeTransfer} :
    ∀ {l : List (String × PendingInvokeTransfer)},
      (l.map Prod.fst).Nodup → mget k l = some v →
      sumTotal (mdel k l) = sumTotal l - v.totalBytes
  | [], _, h => by simp [mget] at h
  | (k2, v2) :: rest, hnd, h => by
    simp only [List.map_cons, List.nodup_cons] at hnd
    by_cases hk : k2 = k
    · simp [mget, hk] at h
      have hns : k ∉ rest.map Prod.fst := hk ▸ hnd.1
      rw [mdel_cons, if_pos hk, mdel_of_notmem hns, ← h, sumTotal_cons]
      show sumTotal rest = v2.totalBytes + sumTotal rest - v2.totalBytes
      omega
    · simp [mget, hk] at h
      have h2 := sumTotal_mdel (l := rest) hnd.2 h
      rw [mdel_cons, if_neg hk, sumTotal_cons, sumTotal_cons, h2]
      omega

theorem sumTotal_mset_of_mget_some {k : String} {v v2 : PendingInvokeTransfer} :
    ∀ {l : List (String × PendingInvokeTransfer)}, mget k l = some v →
      v2.totalBytes = v.totalBytes → sumTotal (mset k v2 l) = sumTotal l
  | [], h, _ => by simp [mget] at h
  | (k2, v3) :: rest, h, heq => by
    by_cases hk : k2 = k
    · simp [mget, hk] at h
      simp [mset, hk, sumTotal_cons, heq, h]
    · simp [mget, hk] at h
      simp [mset, hk, sumTotal_cons, sumTotal_mset_of_mget_some h heq]

/-- JS truthiness of a value that may be absent (absent is falsy). -/
def truthyOpt : Option JsVal → Bool
  | some v => v.truthy
  | none => false

/-- C8 (amended): in the Pending state a further exec-pending frame does not
resolve the call, but it is not ignored either: it cancels the armed
timer, arms a fresh extended timer of duration payload.timeoutMs (or
300000 ms), and invokes onPending again when the callback is present. -/
theorem C8_duplicate_pending_rearms (hasOnPending : Bool)
    (payload : Option ExecPendingPayload) (st : ExecClientState)
    (hs : st.settled = false) (_hp : st.pendingReceived = true) :
    (execHandleLine hasOnPending (ExecLine.pendingLine payload) st).settled = false ∧
    (execHandleLine hasOnPending (ExecLine.pendingLine payload) st).resolvedWith =
      st.resolvedWith ∧
    (execHandleLine hasOnPending (ExecLine.pendingLine payload) st).armed =
      some { gen := st.timerGen,
             duration := (payload.bind (fun q => q.timeoutMs)).getD 300000,
             kind := TimerKind.extended } ∧
    (execHandleLine hasOnPending (ExecLine.pendingLine payload) st).timerGen =
      st.timerGen + 1 ∧
    (execHandleLine hasOnPending (ExecLine.pendingLine payload) st).onPendingCalls =
      (if hasOnPending then st.onPendingCalls ++ [payload] else st.onPendingCalls) := by
  cases hasOnPending <;> simp [execHandleLine, hs]

/-- The payload of the duplicate exec-pending line used in witnesses. -/
def fixDupPayload : Option ExecPendingPayload :=
  some { reason := some "awaiting-approval", timeoutMs := some 400 }

/-- C8 witness for the amended theorem at a concrete Pending-state input. -/
theorem C8_duplicate_pending_rearms_witness :
    fixExecPending1.settled = false ∧ fixExecPending1.pendingReceived = true ∧
    ((execHandleLine true (ExecLine.pendingLine fixDupPayload)
        fixExecPending1).settled = false ∧
     (execHandleLine true (ExecLine.pendingLine fixDupPayload)
        fixExecPending1).resolvedWith = fixExecPending1.resolvedWith ∧
     (execHandleLine true (ExecLine.pendingLine fixDupPayload)
        fixExecPending1).armed =
       some { gen := fixExecPending1.timerGen,
              duration := (fixDupPayload.bind (fun q => q.timeoutMs)).getD 300000,
              kind := TimerKind.extended } ∧
     (execHandleLine true (ExecLine.pendingLine fixDupPayload)
        fixExecPending1).timerGen = fixExecPending1.timerGen + 1 ∧
     (execHandleLine true (ExecLine.pendingLine fixDupPayload)
        fixExecPending1).onPendingCalls =
       (if true then fixExecPending1.onPendingCalls ++ [fixDupPayload]
         else fixExecPending1.onPendingCalls)) :=
  ⟨by decide, by decide,
    C8_duplicate_pending_rearms true fixDupPayload
      fixExecPending1 (by decide) (by decide)⟩

/-- C9: an exec-res line whose shape is invalid — ok is not literally true
with a truthy payload, and not literally false with a truthy error —
resolves the call with null (not with the partial frame contents),
cancels the armed timer and destroys the socket. -/
theorem C9_invalid_execres_resolves_null (hasOnPending : Bool) (ok : OkField)
    (payload error : Option JsVal) (st : ExecClientState)
    (hs : st.settled = false)
    (h1 : ok ≠ OkField.isTrue ∨ truthyOpt payload = false)
    (h2 : ok ≠ OkField.isFalse ∨ truthyOpt error = false) :
    (execHandleLine hasOnPending (ExecLine.resLine ok payload error) st).settled = true ∧
    (execHandleLine hasOnPending (ExecLine.resLine ok payload error) st).resolvedWith =
      some none ∧
    (execHandleLine hasOnPending (ExecLine.resLine ok payload error) st).armed = none ∧
    (execHandleLine hasOnPending (ExecLine.resLine ok payload error) st).socketDestroyed =
      true := by
  have hout : execResOutcome ok payload error = none := by
    cases ok <;> cases payload <;> cases error <;>
      simp_all [execResOutcome, truthyOpt]
  simp [execHandleLine, hout, execFinish, hs]

theorem clearInvokeTransfer_of_none {id : String} {s : RegistryState}
    (h : mget id s.invokeTransfers = none) : clearInvokeTransfer id s = s := by
  simp [clearInvokeTransfer, h]

/-- C7: a start frame for a matching pending invoke with no existing
transfer, whose totalBytes exceeds maxInvokeResultBytes or would push
inflightBytes over maxInflightBytes, is rejected as payload-too-large;
the owning invoke is resolved with ok false, code INVALID_REQUEST and
message payload too large; no transfer is created and inflightBytes is
unchanged. -/
theorem C7_oversized_start_rejected (p : StartTransferParams) (s : RegistryState)
    (pend : PendingInvoke)
    (hp : mget p.id s.pendingInvokes = some pend)
    (hpn : pend.nodeId = p.nodeId)
    (ht : mget p.id s.invokeTransfers = none)
    (hbig : p.totalBytes > p.maxInvokeResultBytes ∨
            s.inflightBytes + p.totalBytes > p.maxInflightBytes) :
    (startInvokeResultTransfer p s).1 =
      InvokeTransferResult.err TransferFailureReason.payloadTooLarge "payload too large" ∧
    (startInvokeResultTransfer p s).2.resolutions =
      (p.id, Outcome.value
        { ok := false,
          error := some { code := some "INVALID_REQUEST",
                          message := some "payload too large" } }) :: s.resolutions ∧
    (startInvokeResultTransfer p s).2.invokeTransfers = s.invokeTransfers ∧
    (startInvokeResultTransfer p s).2.inflightBytes = s.inflightBytes ∧
    mget p.id (startInvokeResultTransfer p s).2.pendingInvokes = none := by
  have hkey : (startInvokeResultTransfer p s) =
      (InvokeTransferResult.err TransferFailureReason.payloadTooLarge "payload too large",
        resolveInvokeError p.id p.nodeId
          { code := some "INVALID_REQUEST", message := some "payload too large" } s) := by
    rcases hbig with hb | hb
    · simp [startInvokeResultTransfer, hp, hpn, ht, hb]
    · by_cases hc : p.totalBytes > p.maxInvokeResultBytes
      · simp [startInvokeResultTransfer, hp, hpn, ht, hc]
      · simp [startInvokeResultTransfer, hp, hpn, ht, hc, hb]
  rw [hkey]
  simp [resolveInvokeError, handleInvokeResult, hp, hpn, cancelTimer,
    clearInvokeTransfer, ht, fireResolve, mget_mdel_self]

/-- A start frame whose totalBytes 200 exceeds the 100-byte result cap. -/
def fixBigStart : StartTransferParams :=
  { id := "req-1", nodeId := "node-1", totalBytes := 200, chunkBytes := 4,
    chunkCount := 50, sha256 := "AB", maxInvokeResultBytes := 100,
    maxInflightBytes := 1000 }

/-- C7 witness at the concrete oversized start frame. -/
theorem C7_oversized_start_rejected_witness :
    mget fixBigStart.id fixPendingState.pendingInvokes =
      some { nodeId := "node-1", command := "system.run" } ∧
    ({ nodeId := "node-1", command := "system.run" } : PendingInvoke).nodeId =
      fixBigStart.nodeId ∧
    mget fixBigStart.id fixPendingState.invokeTransfers = none ∧
    (fixBigStart.totalBytes > fixBigStart.maxInvokeResultBytes ∨
      fixPendingState.inflightBytes + fixBigStart.totalBytes >
        fixBigStart.maxInflightBytes) ∧
    ((startInvokeResultTransfer fixBigStart fixPendingState).1 =
      InvokeTransferResult.err TransferFailureReason.payloadTooLarge "payload too large" ∧
    (startInvokeResultTransfer fixBigStart fixPendingState).2.resolutions =
      (fixBigStart.id, Outcome.value
        { ok := false,
          error := some { code := some "INVALID_REQUEST",
                          message := some "payload too large" } }) ::
        fixPendingState.resolutions ∧
    (startInvokeResultTransfer fixBigStart fixPendingState).2.invokeTransfers =
      fixPendingState.invokeTransfers ∧
    (startInvokeResultTransfer fixBigStart fixPendingState).2.inflightBytes =
      fixPendingState.inflightBytes ∧
    mget fixBigStart.id
      (startInvokeResultTransfer fixBigStart fixPendingState).2.pendingInvokes = none) :=
  ⟨by decide, by decide, by decide, by decide,
    C7_oversized_start_rejected fixBigStart fixPendingState
      { nodeId := "node-1", command := "system.run" }
      (by decide) (by decide) (by decide) (by decide)⟩

/-- C4: for an active transfer with matching nodeId and owning pending
invoke, a chunk whose index fails index = nextIndex or index < chunkCount
is rejected as chunk-out-of-order and the owning invoke is resolved with
ok false and code INVALID_REQUEST; an accepted chunk satisfies both
conditions and advances nextIndex by exactly one, so accepted chunks form
the contiguous ascending sequence 0, 1, 2, and so on. -/
theorem C4_chunk_order_gate (sha utf8 : List Nat → String) (p : ChunkParams)
    (s : RegistryState) (t : PendingInvokeTransfer) (pend : PendingInvoke)
    (ht : mget p.id s.invokeTransfers = some t)
    (hn : t.nodeId = p.nodeId)
    (hp : mget p.id s.pendingInvokes = some pend)
    (hpn : pend.nodeId = p.nodeId) :
    (¬ (p.index = t.nextIndex ∧ p.index < t.chunkCount) →
      (handleInvokeResultChunk sha utf8 p s).1 =
        InvokeTransferResult.err TransferFailureReason.chunkOutOfOrder
          "chunk out of order" ∧
      (handleInvokeResultChunk sha utf8 p s).2.resolutions =
        (p.id, Outcome.value
          { ok := false,
            error := some { code := some "INVALID_REQUEST",
                            message := some "chunk out of order" } }) :: s.resolutions ∧
      mget p.id (handleInvokeResultChunk sha utf8 p s).2.pendingInvokes = none) ∧
    ((handleInvokeResultChunk sha utf8 p s).1 = InvokeTransferResult.ok →
      p.index = t.nextIndex ∧ p.index < t.chunkCount ∧
      ∀ t2, mget p.id (handleInvokeResultChunk sha utf8 p s).2.invokeTransfers = some t2 →
        t2.nextIndex = t.nextIndex + 1) := by
  by_cases hcond : p.index = t.nextIndex ∧ p.index < t.chunkCount
  · have hbrneg : ¬ (p.index ≠ t.nextIndex ∨ p.index ≥ t.chunkCount) := by
      push_neg
      exact ⟨hcond.1, hcond.2⟩
    refine ⟨fun hc => absurd hcond hc, fun hok => ⟨hcond.1, hcond.2, ?_⟩⟩
    intro t2 h2
    by_cases hlen : (p.data.length : Int) = p.bytes
    · by_cases hfit : t.totalBytes < t.bytesReceived + p.bytes
      · exfalso
        simp [handleInvokeResultChunk, ht, hn, hbrneg, hlen, hfit] at hok
      · by_cases hcomp : t.nextIndex + 1 = t.chunkCount
        · by_cases hbe : t.bytesReceived + p.bytes = t.totalBytes
          · by_cases hdig : jsToLower (sha (t.hashed ++ p.data)) = t.sha256
            · exfalso
              simp only [handleInvokeResultChunk, ht, hn, hbrneg, hlen, hfit, hcomp,
                hbe, hdig] at h2
              simp [handleInvokeResult, mget_mset_self, hp, hpn, cancelTimer,
                clearInvokeTransfer, fireResolve, mget_mdel_self, hfit, hbe, hdig,
                hcomp] at h2
            · exfalso
              simp [handleInvokeResultChunk, ht, hn, hbrneg, hlen, hfit, hcomp,
                hbe, hdig] at hok
          · exfalso
            simp [handleInvokeResultChunk, ht, hn, hbrneg, hlen, hfit, hcomp, hbe] at hok
        · simp only [handleInvokeResultChunk, ht, hn, hbrneg, hlen, hfit, hcomp] at h2
          simp [mget_mset_self] at h2
          subst h2
          rfl
    · exfalso
      simp [handleInvokeResultChunk, ht, hn, hbrneg, hlen] at hok
  · have hbr := not_and_or.mp hcond
    have hconc : handleInvokeResultChunk sha utf8 p s =
        (InvokeTransferResult.err TransferFailureReason.chunkOutOfOrder
            "chunk out of order",
          resolveInvokeError p.id p.nodeId
            { code := some "INVALID_REQUEST",
              message := some "chunk out of order" } s) := by
      rcases hbr with h | h
      · simp [handleInvokeResultChunk, ht, hn, h]
      · have h2 : p.index ≥ t.chunkCount := not_lt.mp h
        simp [handleInvokeResultChunk, ht, hn, h2]
    rw [hconc]
    refine ⟨fun _ => ⟨rfl, ?_, ?_⟩, fun hok => by simp at hok⟩
    · simp [resolveInvokeError, handleInvokeResult, hp, hpn, cancelTimer,
        clearInvokeTransfer, ht, fireResolve]
    · simp [resolveInvokeError, handleInvokeResult, hp, hpn, cancelTimer,
        clearInvokeTransfer, ht, fireResolve, mget_mdel_self]

/-- A start frame for a two-chunk, 8-byte transfer on the pending invoke. -/
def fixTwoChunkStart : StartTransferParams :=
  { id := "req-1", nodeId := "node-1", totalBytes := 8, chunkBytes := 4,
    chunkCount := 2, sha256 := "AA", maxInvokeResultBytes := 100,
    maxInflightBytes := 100 }

/-- fixPendingState after accepting the two-chunk start frame. -/
def fixC4State : RegistryState :=
  (startInvokeResultTransfer fixTwoChunkStart fixPendingState).2

/-- The transfer record created by fixTwoChunkStart. -/
def fixC4Transfer : PendingInvokeTransfer :=
  { nodeId := "node-1", totalBytes := 8, chunkBytes := 4, chunkCount := 2,
    nextIndex := 0, bytesReceived := 0, sha256 := "aa", hashed := [], chunks := [] }

/-- An out-of-order chunk: index 1 while nextIndex is 0. -/
def fixC4Chunk : ChunkParams :=
  { id := "req-1", nodeId := "node-1", index := 1, data := [1, 2, 3, 4], bytes := 4 }

/-- A concrete stand-in for the sha256 hex digest. -/
def fixSha : List Nat → String := fun _ => "AA"

/-- A concrete stand-in for utf8 decoding. -/
def fixUtf8 : List Nat → String := fun _ => "hello"

/-- C4 witness at the concrete out-of-order chunk. -/
theorem C4_chunk_order_gate_witness :
    mget fixC4Chunk.id fixC4State.invokeTransfers = some fixC4Transfer ∧
    fixC4Transfer.nodeId = fixC4Chunk.nodeId ∧
    mget fixC4Chunk.id fixC4State.pendingInvokes =
      some { nodeId := "node-1", command := "system.run" } ∧
    ({ nodeId := "node-1", command := "system.run" } : PendingInvoke).nodeId =
      fixC4Chunk.nodeId ∧
    ((¬ (fixC4Chunk.index = fixC4Transfer.nextIndex ∧
          fixC4Chunk.index < fixC4Transfer.chunkCount) →
      (handleInvokeResultChunk fixSha fixUtf8 fixC4Chunk fixC4State).1 =
        InvokeTransferResult.err TransferFailureReason.chunkOutOfOrder
          "chunk out of order" ∧
      (handleInvokeResultChunk fixSha fixUtf8 fixC4Chunk fixC4State).2.resolutions =
        (fixC4Chunk.id, Outcome.value
          { ok := false,
            error := some { code := some "INVALID_REQUEST",
                            message := some "chunk out of order" } }) ::
          fixC4State.resolutions ∧
      mget fixC4Chunk.id
        (handleInvokeResultChunk fixSha fixUtf8 fixC4Chunk fixC4State).2.pendingInvokes =
        none) ∧
    ((handleInvokeResultChunk fixSha fixUtf8 fixC4Chunk fixC4State).1 =
        InvokeTransferResult.ok →
      fixC4Chunk.index = fixC4Transfer.nextIndex ∧
      fixC4Chunk.index < fixC4Transfer.chunkCount ∧
      ∀ t2, mget fixC4Chunk.id
          (handleInvokeResultChunk fixSha fixUtf8 fixC4Chunk fixC4State).2.invokeTransfers =
          some t2 →
        t2.nextIndex = fixC4Transfer.nextIndex + 1)) :=
  ⟨by decide, by decide, by decide, by decide,
    C4_chunk_order_gate fixSha fixUtf8 fixC4Chunk fixC4State fixC4Transfer
      { nodeId := "node-1", command := "system.run" }
      (by decide) (by decide) (by decide) (by decide)⟩

theorem bufferConcat_exact (cs : List (List Nat)) (n : Int)
    (h : (cs.flatten.length : Int) = n) : bufferConcat cs n = cs.flatten := by
  unfold bufferConcat
  rw [show n.toNat = cs.flatten.length by omega]
  simp

/-- C5: an accepted final chunk (index and byte checks passed, nextIndex
reaching chunkCount) completes the transfer successfully exactly when the
received byte count equals totalBytes and the lowercase sha256 digest of
the received bytes equals the lowercase expected digest; on success the
owning invoke is resolved with ok true and payloadJSON the utf8 decoding
of the chunks concatenated in index order, and the transfer is destroyed;
a size or hash failure instead resolves the invoke with INVALID_REQUEST;
a non-final accepted chunk resolves nothing. -/
theorem C5_transfer_completion (sha utf8 : List Nat → String) (p : ChunkParams)
    (s : RegistryState) (t : PendingInvokeTransfer) (pend : PendingInvoke)
    (expected : String)
    (ht : mget p.id s.invokeTransfers = some t)
    (hn : t.nodeId = p.nodeId)
    (hp : mget p.id s.pendingInvokes = some pend)
    (hpn : pend.nodeId = p.nodeId)
    (hidx : p.index = t.nextIndex)
    (hlt : p.index < t.chunkCount)
    (hlen : (p.data.length : Int) = p.bytes)
    (hfit : t.bytesReceived + p.bytes ≤ t.totalBytes)
    (hsha : t.sha256 = jsToLower expected)
    (hhc : t.hashed = t.chunks.flatten)
    (hbl : (t.chunks.flatten.length : Int) = t.bytesReceived) :
    (t.nextIndex + 1 ≠ t.chunkCount →
      (handleInvokeResultChunk sha utf8 p s).1 = InvokeTransferResult.ok ∧
      (handleInvokeResultChunk sha utf8 p s).2.resolutions = s.resolutions) ∧
    (t.nextIndex + 1 = t.chunkCount → t.bytesReceived + p.bytes ≠ t.totalBytes →
      (handleInvokeResultChunk sha utf8 p s).1 =
        InvokeTransferResult.err TransferFailureReason.chunkBytesMismatch
          "chunk bytes mismatch" ∧
      (handleInvokeResultChunk sha utf8 p s).2.resolutions =
        (p.id, Outcome.value
          { ok := false,
            error := some { code := some "INVALID_REQUEST",
                            message := some "chunk bytes mismatch" } }) ::
          s.resolutions) ∧
    (t.nextIndex + 1 = t.chunkCount → t.bytesReceived + p.bytes = t.totalBytes →
      jsToLower (sha (t.chunks.flatten ++ p.data)) ≠ jsToLower expected →
      (handleInvokeResultChunk sha utf8 p s).1 =
        InvokeTransferResult.err TransferFailureReason.hashMismatch "hash mismatch" ∧
      (handleInvokeResultChunk sha utf8 p s).2.resolutions =
        (p.id, Outcome.value
          { ok := false,
            error := some { code := some "INVALID_REQUEST",
                            message := some "hash mismatch" } }) :: s.resolutions) ∧
    (t.nextIndex + 1 = t.chunkCount → t.bytesReceived + p.bytes = t.totalBytes →
      jsToLower (sha (t.chunks.flatten ++ p.data)) = jsToLower expected →
      (handleInvokeResultChunk sha utf8 p s).1 = InvokeTransferResult.ok ∧
      (handleInvokeResultChunk sha utf8 p s).2.resolutions =
        (p.id, Outcome.value
          { ok := true,
            payloadJSON := some (utf8 (t.chunks.flatten ++ p.data)) }) ::
          s.resolutions ∧
      mget p.id (handleInvokeResultChunk sha utf8 p s).2.invokeTransfers = none) := by
  have hbrneg : ¬ (p.index ≠ t.nextIndex ∨ p.index ≥ t.chunkCount) := by
    push_neg
    exact ⟨hidx, hlt⟩
  have hfit2 : ¬ (t.totalBytes < t.bytesReceived + p.bytes) := by omega
  refine ⟨?_, ?_, ?_, ?_⟩
  · intro hni
    simp [handleInvokeResultChunk, ht, hn, hbrneg, hlen, hfit2, hni]
  · intro hni hbe
    simp [handleInvokeResultChunk, ht, hn, hbrneg, hlen, hfit2, hni, hbe,
      resolveInvokeError, handleInvokeResult, hp, hpn, cancelTimer,
      clearInvokeTransfer, fireResolve, mget_mset_self, mget_mdel_self]
  · intro hni hbe hdig
    have hdig2 : ¬ (jsToLower (sha (t.hashed ++ p.data)) = t.sha256) := by
      rw [hhc, hsha]
      exact hdig
    simp [handleInvokeResultChunk, ht, hn, hbrneg, hlen, hfit2, hni, hbe, hdig2,
      resolveInvokeError, handleInvokeResult, hp, hpn, cancelTimer,
      clearInvokeTransfer, fireResolve, mget_mset_self, mget_mdel_self]
  · intro hni hbe hdig
    have hdig2 : jsToLower (sha (t.hashed ++ p.data)) = t.sha256 := by
      rw [hhc, hsha]
      exact hdig
    have hbc : bufferConcat (t.chunks ++ [p.data]) t.totalBytes =
        t.chunks.flatten ++ p.data := by
      have h1 : (t.chunks ++ [p.data]).flatten = t.chunks.flatten ++ p.data := by
        simp
      rw [← h1]
      apply bufferConcat_exact
      rw [h1]
      simp only [List.length_append]
      omega
    simp [handleInvokeResultChunk, ht, hn, hbrneg, hlen, hfit2, hni, hbe, hdig2, hbc,
      handleInvokeResult, hp, hpn, cancelTimer,
      clearInvokeTransfer, fireResolve, mget_mset_self, mget_mdel_self]

/-- A start frame for a single-chunk, 2-byte transfer with uppercase hex
digest AA. -/
def fixOneChunkStart : StartTransferParams :=
  { id := "req-1", nodeId := "node-1", totalBytes := 2, chunkBytes := 2,
    chunkCount := 1, sha256 := "AA", maxInvokeResultBytes := 100,
    maxInflightBytes := 100 }

/-- fixPendingState after accepting the single-chunk start frame. -/
def fixC5State : RegistryState :=
  (startInvokeResultTransfer fixOneChunkStart fixPendingState).2

/-- The transfer record created by fixOneChunkStart (digest stored
lowercased). -/
def fixC5Transfer : PendingInvokeTransfer :=
  { nodeId := "node-1", totalBytes := 2, chunkBytes := 2, chunkCount := 1,
    nextIndex := 0, bytesReceived := 0, sha256 := "aa", hashed := [], chunks := [] }

/-- The final (and only) chunk of the fixC5 transfer. -/
def fixC5Chunk : ChunkParams :=
  { id := "req-1", nodeId := "node-1", index := 0, data := [104, 105], bytes := 2 }

/-- C5 witness at the concrete completing chunk. -/
theorem C5_transfer_completion_witness :
    mget fixC5Chunk.id fixC5State.invokeTransfers = some fixC5Transfer ∧
    fixC5Transfer.nodeId = fixC5Chunk.nodeId ∧
    mget fixC5Chunk.id fixC5State.pendingInvokes =
      some { nodeId := "node-1", command := "system.run" } ∧
    ({ nodeId := "node-1", command := "system.run" } : PendingInvoke).nodeId =
      fixC5Chunk.nodeId ∧
    fixC5Chunk.index = fixC5Transfer.nextIndex ∧
    fixC5Chunk.index < fixC5Transfer.chunkCount ∧
    (fixC5Chunk.data.length : Int) = fixC5Chunk.bytes ∧
    fixC5Transfer.bytesReceived + fixC5Chunk.bytes ≤ fixC5Transfer.totalBytes ∧
    fixC5Transfer.sha256 = jsToLower "AA" ∧
    fixC5Transfer.hashed = fixC5Transfer.chunks.flatten ∧
    (fixC5Transfer.chunks.flatten.length : Int) = fixC5Transfer.bytesReceived ∧
    ((fixC5Transfer.nextIndex + 1 ≠ fixC5Transfer.chunkCount →
      (handleInvokeResultChunk fixSha fixUtf8 fixC5Chunk fixC5State).1 =
        InvokeTransferResult.ok ∧
      (handleInvokeResultChunk fixSha fixUtf8 fixC5Chunk fixC5State).2.resolutions =
        fixC5State.resolutions) ∧
    (fixC5Transfer.nextIndex + 1 = fixC5Transfer.chunkCount →
      fixC5Transfer.bytesReceived + fixC5Chunk.bytes ≠ fixC5Transfer.totalBytes →
      (handleInvokeResultChunk fixSha fixUtf8 fixC5Chunk fixC5State).1 =
        InvokeTransferResult.err TransferFailureReason.chunkBytesMismatch
          "chunk bytes mismatch" ∧
      (handleInvokeResultChunk fixSha fixUtf8 fixC5Chunk fixC5State).2.resolutions =
        (fixC5Chunk.id, Outcome.value
          { ok := false,
            error := some { code := some "INVALID_REQUEST",
                            message := some "chunk bytes mismatch" } }) ::
          fixC5State.resolutions) ∧
    (fixC5Transfer.nextIndex + 1 = fixC5Transfer.chunkCount →
      fixC5Transfer.bytesReceived + fixC5Chunk.bytes = fixC5Transfer.totalBytes →
      jsToLower (fixSha (fixC5Transfer.chunks.flatten ++ fixC5Chunk.data)) ≠
        jsToLower "AA" →
      (handleInvokeResultChunk fixSha fixUtf8 fixC5Chunk fixC5State).1 =
        InvokeTransferResult.err TransferFailureReason.hashMismatch "hash mismatch" ∧
      (handleInvokeResultChunk fixSha fixUtf8 fixC5Chunk fixC5State).2.resolutions =
        (fixC5Chunk.id, Outcome.value
          { ok := false,
            error := some { code := some "INVALID_REQUEST",
                            message := some "hash mismatch" } }) ::
          fixC5State.resolutions) ∧
    (fixC5Transfer.nextIndex + 1 = fixC5Transfer.chunkCount →
      fixC5Transfer.bytesReceived + fixC5Chunk.bytes = fixC5Transfer.totalBytes →
      jsToLower (fixSha (fixC5Transfer.chunks.flatten ++ fixC5Chunk.data)) =
        jsToLower "AA" →
      (handleInvokeResultChunk fixSha fixUtf8 fixC5Chunk fixC5State).1 =
        InvokeTransferResult.ok ∧
      (handleInvokeResultChunk fixSha fixUtf8 fixC5Chunk fixC5State).2.resolutions =
        (fixC5Chunk.id, Outcome.value
          { ok := true,
            payloadJSON :=
              some (fixUtf8 (fixC5Transfer.chunks.flatten ++ fixC5Chunk.data)) }) ::
          fixC5State.resolutions ∧
      mget fixC5Chunk.id
        (handleInvokeResultChunk fixSha fixUtf8 fixC5Chunk fixC5State).2.invokeTransfers =
        none)) :=
  ⟨by decide, by decide, by decide, by decide, by decide, by decide, by decide,
    by decide, by decide, by decide, by decide,
    C5_transfer_completion fixSha fixUtf8 fixC5Chunk fixC5State fixC5Transfer
      { nodeId := "node-1", command := "system.run" } "AA"
      (by decide) (by decide) (by decide) (by decide) (by decide) (by decide)
      (by decide) (by decide) (by decide) (by decide) (by decide)⟩

/-- C9 witness at a concrete input: ok literally true but payload absent. -/
theorem C9_invalid_execres_resolves_null_witness :
    fixExecPending1.settled = false ∧
    (OkField.isTrue ≠ OkField.isTrue ∨ truthyOpt none = false) ∧
    (OkField.isTrue ≠ OkField.isFalse ∨ truthyOpt none = false) ∧
    ((execHandleLine true (ExecLine.resLine OkField.isTrue none none)
        fixExecPending1).settled = true ∧
     (execHandleLine true (ExecLine.resLine OkField.isTrue none none)
        fixExecPending1).resolvedWith = some none ∧
     (execHandleLine true (ExecLine.resLine OkField.isTrue none none)
        fixExecPending1).armed = none ∧
     (execHandleLine true (ExecLine.resLine OkField.isTrue none none)
        fixExecPending1).socketDestroyed = true) :=
  ⟨by decide, by decide, by decide,
    C9_invalid_execres_resolves_null true OkField.isTrue none none
      fixExecPending1 (by decide) (by decide) (by decide)⟩


/-- Well-formedness of the transfer table for inflight accounting: keys are
unique, every recorded totalBytes is nonnegative, and inflightBytes is
the sum of totalBytes over active transfers. -/
structure TransferInv (s : RegistryState) : Prop where
  nodup : (s.invokeTransfers.map Prod.fst).Nodup
  nonneg : ∀ q ∈ s.invokeTransfers, 0 ≤ q.2.totalBytes
  sumEq : s.inflightBytes = sumTotal s.invokeTransfers

theorem transferInv_fireResolve (id : String) (r : NodeInvokeResult)
    {s : RegistryState} (h : TransferInv s) : TransferInv (fireResolve id r s) :=
  ⟨h.nodup, h.nonneg, h.sumEq⟩

theorem transferInv_clear (id : String) {s : RegistryState} (h : TransferInv s) :
    TransferInv (clearInvokeTransfer id s) := by
  cases hm : mget id s.invokeTransfers with
  | none => simpa [clearInvokeTransfer, hm] using h
  | some t =>
    have hmem := mget_mem hm
    have hle := total_le_sumTotal hmem h.nonneg
    have hsum := sumTotal_mdel h.nodup hm
    have hnd : ((mdel id s.invokeTransfers).map Prod.fst).Nodup :=
      h.nodup.sublist ((mdel_sublist id s.invokeTransfers).map Prod.fst)
    simp only [clearInvokeTransfer, hm]
    refine ⟨hnd, fun q hq => h.nonneg q (mem_mdel hq), ?_⟩
    show max 0 (s.inflightBytes - t.totalBytes) = sumTotal (mdel id s.invokeTransfers)
    have hs := h.sumEq
    omega

theorem transferInv_handleInvokeResult (q : InvokeResultParams) {s : RegistryState}
    (h : TransferInv s) : TransferInv (handleInvokeResult q s).2 := by
  cases hm : mget q.id s.pendingInvokes with
  | none => simpa [handleInvokeResult, hm] using h
  | some pending =>
    by_cases hn : pending.nodeId = q.nodeId
    · simp only [handleInvokeResult, hm, hn, cancelTimer]
      simp only [ne_eq, not_true_eq_false, if_false]
      apply transferInv_fireResolve
      apply transferInv_clear
      exact ⟨h.nodup, h.nonneg, h.sumEq⟩
    · simpa [handleInvokeResult, hm, hn] using h

theorem transferInv_resolveInvokeError (id nodeId : String) (e : ErrInfo)
    {s : RegistryState} (h : TransferInv s) :
    TransferInv (resolveInvokeError id nodeId e s) :=
  transferInv_handleInvokeResult _ h

theorem transferInv_register (c : GatewayWsClient) (r : Option String) (now : Int)
    {s : RegistryState} (h : TransferInv s) : TransferInv (register c r now s).2 :=
  ⟨h.nodup, h.nonneg, h.sumEq⟩

theorem transferInv_invoke (requestId : String) (p : InvokeParams)
    {s : RegistryState} (h : TransferInv s) : TransferInv (invoke requestId p s).2 := by
  cases hm : mget p.nodeId s.nodesById with
  | none => simpa [invoke, hm] using h
  | some node =>
    by_cases hs : node.client.sendOk
    · simp only [invoke, hm, hs]
      simp only [Bool.not_true, Bool.false_eq_true, if_false]
      exact ⟨h.nodup, h.nonneg, h.sumEq⟩
    · simp only [invoke, hm]
      simp only [Bool.not_eq_true] at hs
      simp only [hs, Bool.not_false, if_true]
      exact h

theorem transferInv_timeout (requestId : String) {s : RegistryState}
    (h : TransferInv s) : TransferInv (fireInvokeTimeout requestId s) := by
  by_cases hmem : requestId ∈ s.activeTimers
  · simp only [fireInvokeTimeout, hmem, if_true, cancelTimer]
    apply transferInv_fireResolve
    apply transferInv_clear
    exact ⟨h.nodup, h.nonneg, h.sumEq⟩
  · simpa [fireInvokeTimeout, hmem] using h

theorem transferInv_foldl {β : Type} {f : RegistryState → (String × β) → RegistryState}
    (hf : ∀ st p, TransferInv st → TransferInv (f st p)) :
    ∀ (l : List (String × β)) {s : RegistryState}, TransferInv s →
      TransferInv (l.foldl f s)
  | [], _, h => h
  | a :: rest, s, h => transferInv_foldl hf rest (hf s a h)

theorem transferInv_unregister (connId : String) {s : RegistryState}
    (h : TransferInv s) : TransferInv (unregister connId s).2 := by
  cases hm : mget connId s.nodesByConn with
  | none => simpa [unregister, hm] using h
  | some nodeId =>
    simp only [unregister, hm]
    apply transferInv_foldl (fun st p hst => transferInv_clear p.1 hst)
    apply transferInv_foldl
    · intro st p hst
      exact ⟨hst.nodup, hst.nonneg, hst.sumEq⟩
    · exact ⟨h.nodup, h.nonneg, h.sumEq⟩

theorem transferInv_msetSame (id : String) (t t2 : PendingInvokeTransfer)
    {s : RegistryState} (hm : mget id s.invokeTransfers = some t)
    (heq : t2.totalBytes = t.totalBytes) (h : TransferInv s) :
    TransferInv { s with invokeTransfers := mset id t2 s.invokeTransfers } := by
  refine ⟨?_, ?_, ?_⟩
  · show ((mset id t2 s.invokeTransfers).map Prod.fst).Nodup
    rw [keys_mset_of_mget_some hm]
    exact h.nodup
  · intro q hq
    rcases mem_mset hq with h1 | h1
    · rw [h1]
      show 0 ≤ t2.totalBytes
      rw [heq]
      exact h.nonneg (id, t) (mget_mem hm)
    · exact h.nonneg q h1
  · show s.inflightBytes = sumTotal (mset id t2 s.invokeTransfers)
    rw [sumTotal_mset_of_mget_some hm heq]
    exact h.sumEq

theorem transferInv_append_fresh (id : String) (tr : PendingInvokeTransfer)
    {s : RegistryState} (hm : mget id s.invokeTransfers = none)
    (h0 : 0 ≤ tr.totalBytes) (h : TransferInv s) :
    TransferInv { s with invokeTransfers := mset id tr s.invokeTransfers,
                         inflightBytes := s.inflightBytes + tr.totalBytes } := by
  rw [mset_of_mget_none hm]
  refine ⟨?_, ?_, ?_⟩
  · show ((s.invokeTransfers ++ [(id, tr)]).map Prod.fst).Nodup
    rw [List.map_append]
    simp only [List.map_cons, List.map_nil]
    rw [List.nodup_append]
    refine ⟨h.nodup, List.nodup_singleton _, ?_⟩
    intro a ha hb
    simp at hb
    rw [hb] at ha
    exact mget_none_notmem hm ha
  · intro q hq
    rcases List.mem_append.mp hq with h1 | h1
    · exact h.nonneg q h1
    · simp at h1
      rw [h1]
      exact h0
  · show s.inflightBytes + tr.totalBytes = sumTotal (s.invokeTransfers ++ [(id, tr)])
    rw [sumTotal_append_single, h.sumEq]

theorem transferInv_start (p : StartTransferParams) {s : RegistryState}
    (h0 : 0 ≤ p.totalBytes) (h : TransferInv s) :
    TransferInv (startInvokeResultTransfer p s).2 := by
  cases hp : mget p.id s.pendingInvokes with
  | none => simpa [startInvokeResultTransfer, hp] using h
  | some pending =>
    by_cases hn : pending.nodeId = p.nodeId
    · cases hm : mget p.id s.invokeTransfers with
      | some t =>
        simp [startInvokeResultTransfer, hp, hn, hm]
        exact transferInv_resolveInvokeError _ _ _ h
      | none =>
        by_cases hb1 : p.totalBytes > p.maxInvokeResultBytes
        · simp [startInvokeResultTransfer, hp, hn, hm, hb1]
          exact transferInv_resolveInvokeError _ _ _ h
        · by_cases hb2 : s.inflightBytes + p.totalBytes > p.maxInflightBytes
          · simp [startInvokeResultTransfer, hp, hn, hm, hb1, hb2]
            exact transferInv_resolveInvokeError _ _ _ h
          · simp [startInvokeResultTransfer, hp, hn, hm, hb1, hb2]
            exact transferInv_append_fresh p.id _ hm h0 h
    · simpa [startInvokeResultTransfer, hp, hn] using h


theorem transferInv_chunk (sha utf8 : List Nat → String) (p : ChunkParams)
    {s : RegistryState} (h : TransferInv s) :
    TransferInv (handleInvokeResultChunk sha utf8 p s).2 := by
  cases hm : mget p.id s.invokeTransfers with
  | none =>
    cases hp : mget p.id s.pendingInvokes with
    | none => simpa [handleInvokeResultChunk, hm, hp] using h
    | some pending =>
      by_cases hn : pending.nodeId = p.nodeId
      · simp [handleInvokeResultChunk, hm, hp, hn]
        exact transferInv_resolveInvokeError _ _ _ h
      · simpa [handleInvokeResultChunk, hm, hp, hn] using h
  | some t =>
    by_cases hn : t.nodeId = p.nodeId
    · by_cases hbr : p.index = t.nextIndex ∧ p.index < t.chunkCount
      · have hbrn : ¬ (p.index ≠ t.nextIndex ∨ p.index ≥ t.chunkCount) := by
          push_neg
          exact ⟨hbr.1, hbr.2⟩
        by_cases hlen : (p.data.length : Int) = p.bytes
        · by_cases hnb : t.totalBytes < t.bytesReceived + p.bytes
          · simp [handleInvokeResultChunk, hm, hn, hbrn, hlen, hnb]
            exact transferInv_resolveInvokeError _ _ _ h
          · by_cases hcomp : t.nextIndex + 1 = t.chunkCount
            · by_cases hbe : t.bytesReceived + p.bytes = t.totalBytes
              · by_cases hdg : jsToLower (sha (t.hashed ++ p.data)) = t.sha256
                · simp [handleInvokeResultChunk, hm, hn, hbrn, hlen, hnb, hcomp,
                    hbe, hdg]
                  exact transferInv_handleInvokeResult _
                    (transferInv_msetSame p.id t _ hm rfl h)
                · simp [handleInvokeResultChunk, hm, hn, hbrn, hlen, hnb, hcomp,
                    hbe, hdg]
                  exact transferInv_resolveInvokeError _ _ _
                    (transferInv_msetSame p.id t _ hm rfl h)
              · simp [handleInvokeResultChunk, hm, hn, hbrn, hlen, hnb, hcomp, hbe]
                exact transferInv_resolveInvokeError _ _ _
                  (transferInv_msetSame p.id t _ hm rfl h)
            · simp [handleInvokeResultChunk, hm, hn, hbrn, hlen, hnb, hcomp]
              exact transferInv_msetSame p.id t _ hm rfl h
        · simp [handleInvokeResultChunk, hm, hn, hbrn, hlen]
          exact transferInv_resolveInvokeError _ _ _ h
      · rcases not_and_or.mp hbr with hb | hb
        · simp [handleInvokeResultChunk, hm, hn, hb]
          exact transferInv_resolveInvokeError _ _ _ h
        · have hb2 : p.index ≥ t.chunkCount := not_lt.mp hb
          simp [handleInvokeResultChunk, hm, hn, hb2]
          exact transferInv_resolveInvokeError _ _ _ h
    · cases hp : mget p.id s.pendingInvokes with
      | none => simpa [handleInvokeResultChunk, hm, hp, hn] using h
      | some pending =>
        by_cases hn2 : pending.nodeId = p.nodeId
        · simp [handleInvokeResultChunk, hm, hp, hn, hn2]
          exact transferInv_resolveInvokeError _ _ _ h
        · simpa [handleInvokeResultChunk, hm, hp, hn, hn2] using h

theorem transferInv_abort (p : AbortParams) {s : RegistryState} (h : TransferInv s) :
    TransferInv (abortInvokeResultTransfer p s).2 := by
  cases hp : mget p.id s.pendingInvokes with
  | none =>
    cases hm : mget p.id s.invokeTransfers with
    | some t =>
      by_cases hn : t.nodeId = p.nodeId
      · simp [abortInvokeResultTransfer, hp, hm, hn]
        exact transferInv_clear _ h
      · simpa [abortInvokeResultTransfer, hp, hm, hn] using h
    | none => simpa [abortInvokeResultTransfer, hp, hm] using h
  | some pending =>
    by_cases hn : pending.nodeId = p.nodeId
    · simp [abortInvokeResultTransfer, hp, hn]
      exact transferInv_handleInvokeResult _ h
    · cases hm : mget p.id s.invokeTransfers with
      | some t =>
        by_cases hn2 : t.nodeId = p.nodeId
        · simp [abortInvokeResultTransfer, hp, hn, hm, hn2]
          exact transferInv_clear _ h
        · simpa [abortInvokeResultTransfer, hp, hn, hm, hn2] using h
      | none => simpa [abortInvokeResultTransfer, hp, hn, hm] using h

/-- The sign condition on start frames under which the accounting claim is
provable: a start operation declares a nonnegative totalBytes. -/
def startTotalNonneg : RegOp → Bool
  | RegOp.startOp p => decide (0 ≤ p.totalBytes)
  | _ => true

theorem transferInv_step (sha utf8 : List Nat → String) (op : RegOp)
    {s : RegistryState} (h : TransferInv s)
    (hop : startTotalNonneg op = true) : TransferInv (step sha utf8 op s) := by
  cases op with
  | regOp c r now => exact transferInv_register c r now h
  | unregOp connId => exact transferInv_unregister connId h
  | invokeOp requestId p => exact transferInv_invoke requestId p h
  | timeoutOp requestId => exact transferInv_timeout requestId h
  | resultOp p => exact transferInv_handleInvokeResult p h
  | startOp p =>
    have h0 : 0 ≤ p.totalBytes := by
      simpa [startTotalNonneg] using hop
    exact transferInv_start p h0 h
  | chunkOp p => exact transferInv_chunk sha utf8 p h
  | abortOp p => exact transferInv_abort p h

theorem transferInv_run (sha utf8 : List Nat → String) :
    ∀ (ops : List RegOp) {s : RegistryState}, TransferInv s →
      (∀ op ∈ ops, startTotalNonneg op = true) → TransferInv (run sha utf8 ops s)
  | [], _, h, _ => h
  | op :: rest, _, h, hops =>
    transferInv_run sha utf8 rest
      (transferInv_step sha utf8 op h (hops op (List.mem_cons_self op rest)))
      (fun q hq => hops q (List.mem_cons_of_mem op hq))

theorem transferInv_empty : TransferInv emptyRegistry :=
  ⟨List.nodup_nil, by simp [emptyRegistry], rfl⟩

/-- C6 (amended): for every operation sequence from the empty registry in
which each start frame declares a nonnegative totalBytes, inflightBytes
equals the sum of totalBytes over the currently active transfers and is
never negative. -/
theorem C6_inflight_accounting (sha utf8 : List Nat → String) (ops : List RegOp)
    (h : ∀ op ∈ ops, startTotalNonneg op = true) :
    (run sha utf8 ops emptyRegistry).inflightBytes =
      sumTotal (run sha utf8 ops emptyRegistry).invokeTransfers ∧
    0 ≤ (run sha utf8 ops emptyRegistry).inflightBytes := by
  have hinv := transferInv_run sha utf8 ops transferInv_empty h
  refine ⟨hinv.sumEq, ?_⟩
  rw [hinv.sumEq]
  exact sumTotal_nonneg hinv.nonneg

/-- A concrete operation sequence: register, invoke, start a transfer. -/
def fixC6Ops : List RegOp :=
  [RegOp.regOp fixClient1 (some "127.0.0.1") 0,
   RegOp.invokeOp "req-1" { nodeId := "node-1", command := "system.run" },
   RegOp.startOp fixTwoChunkStart]

/-- C6 witness at the concrete operation sequence. -/
theorem C6_inflight_accounting_witness :
    (∀ op ∈ fixC6Ops, startTotalNonneg op = true) ∧
    ((run fixSha fixUtf8 fixC6Ops emptyRegistry).inflightBytes =
      sumTotal (run fixSha fixUtf8 fixC6Ops emptyRegistry).invokeTransfers ∧
    0 ≤ (run fixSha fixUtf8 fixC6Ops emptyRegistry).inflightBytes) :=
  ⟨by decide, C6_inflight_accounting fixSha fixUtf8 fixC6Ops (by decide)⟩


/-
  Which resolution entries each operation can add to the log.
-/

theorem clearInvokeTransfer_resolutions (id : String) (s : RegistryState) :
    (clearInvokeTransfer id s).resolutions = s.resolutions := by
  cases hm : mget id s.invokeTransfers <;> simp [clearInvokeTransfer, hm]

theorem handleInvokeResult_new_resolutions (q : InvokeResultParams)
    (s : RegistryState) (e : String × Outcome)
    (he : e ∈ (handleInvokeResult q s).2.resolutions)
    (hne : e ∉ s.resolutions) :
    e = (q.id, Outcome.value
      { ok := q.ok, payload := q.payload, payloadJSON := q.payloadJSON,
        error := q.error }) := by
  cases hm : mget q.id s.pendingInvokes with
  | none =>
    rw [show (handleInvokeResult q s).2.resolutions = s.resolutions by
      simp [handleInvokeResult, hm]] at he
    exact absurd he hne
  | some pending =>
    by_cases hn : pending.nodeId = q.nodeId
    · have hres : (handleInvokeResult q s).2.resolutions =
          (q.id, Outcome.value
            { ok := q.ok, payload := q.payload, payloadJSON := q.payloadJSON,
              error := q.error }) :: s.resolutions := by
        simp [handleInvokeResult, hm, hn, cancelTimer, fireResolve,
          clearInvokeTransfer_resolutions]
      rw [hres] at he
      rcases List.mem_cons.mp he with h1 | h1
      · exact h1
      · exact absurd h1 hne
    · have hres : (handleInvokeResult q s).2.resolutions = s.resolutions := by
        simp [handleInvokeResult, hm, hn]
      rw [hres] at he
      exact absurd he hne

theorem resolveInvokeError_new_resolutions (id nodeId : String) (e0 : ErrInfo)
    (s : RegistryState) (e : String × Outcome)
    (he : e ∈ (resolveInvokeError id nodeId e0 s).resolutions)
    (hne : e ∉ s.resolutions) :
    e = (id, Outcome.value { ok := false, error := some e0 }) :=
  handleInvokeResult_new_resolutions _ s e he hne

theorem invoke_resolutions (requestId : String) (p : InvokeParams)
    (s : RegistryState) : (invoke requestId p s).2.resolutions = s.resolutions := by
  cases hm : mget p.nodeId s.nodesById with
  | none => simp [invoke, hm]
  | some node =>
    by_cases hs : node.client.sendOk <;> simp [invoke, hm, hs]

theorem fireInvokeTimeout_new_resolutions (requestId : String) (s : RegistryState)
    (e : String × Outcome)
    (he : e ∈ (fireInvokeTimeout requestId s).resolutions)
    (hne : e ∉ s.resolutions) :
    e = (requestId, Outcome.value
      { ok := false,
        error := some { code := some "TIMEOUT",
                        message := some "node invoke timed out" } }) := by
  by_cases hmem : requestId ∈ s.activeTimers
  · have hres : (fireInvokeTimeout requestId s).resolutions =
        (requestId, Outcome.value
          { ok := false,
            error := some { code := some "TIMEOUT",
                            message := some "node invoke timed out" } }) ::
          s.resolutions := by
      simp [fireInvokeTimeout, hmem, cancelTimer, fireResolve,
        clearInvokeTransfer_resolutions]
    rw [hres] at he
    rcases List.mem_cons.mp he with h1 | h1
    · exact h1
    · exact absurd h1 hne
  · rw [show (fireInvokeTimeout requestId s).resolutions = s.resolutions by
      simp [fireInvokeTimeout, hmem]] at he
    exact absurd he hne

theorem foldl_resolutions_invariant {β : Type}
    {f : RegistryState → (String × β) → RegistryState}
    (hf : ∀ st p, (f st p).resolutions = st.resolutions) :
    ∀ (l : List (String × β)) (st : RegistryState),
      (l.foldl f st).resolutions = st.resolutions
  | [], _ => rfl
  | a :: rest, st => by
    rw [List.foldl_cons, foldl_resolutions_invariant hf rest, hf]

theorem foldl_thrown_resolutions {β : Type}
    {f : RegistryState → (String × β) → RegistryState}
    (hf : ∀ st p, ∃ m, (f st p).resolutions = (p.1, Outcome.thrown m) :: st.resolutions) :
    ∀ (l : List (String × β)) (st : RegistryState) (e2 : String × Outcome),
      e2 ∈ (l.foldl f st).resolutions →
      e2 ∈ st.resolutions ∨ ∃ m, e2.2 = Outcome.thrown m
  | [], _, _, h2 => Or.inl h2
  | a :: rest, st, e2, h2 => by
    rw [List.foldl_cons] at h2
    rcases foldl_thrown_resolutions hf rest _ e2 h2 with h3 | h3
    · rcases hf st a with ⟨m, hmessage⟩
      rw [hmessage] at h3
      rcases List.mem_cons.mp h3 with h4 | h4
      · exact Or.inr ⟨m, by rw [h4]⟩
      · exact Or.inl h4
    · exact Or.inr h3

theorem unregister_new_resolutions (connId : String) (s : RegistryState)
    (e : String × Outcome)
    (he : e ∈ (unregister connId s).2.resolutions)
    (hne : e ∉ s.resolutions) : ∃ m, e.2 = Outcome.thrown m := by
  cases hm : mget connId s.nodesByConn with
  | none =>
    rw [show (unregister connId s).2.resolutions = s.resolutions by
      simp [unregister, hm]] at he
    exact absurd he hne
  | some nodeId =>
    simp only [unregister, hm] at he
    rw [foldl_resolutions_invariant
      (fun st p => clearInvokeTransfer_resolutions p.1 st)] at he
    rcases foldl_thrown_resolutions
        (fun st p => ⟨"node disconnected (" ++ p.2.command ++ ")", rfl⟩)
        _ _ e he with h3 | h3
    · exact absurd h3 hne
    · exact h3


theorem register_resolutions (c : GatewayWsClient) (r : Option String) (now : Int)
    (s : RegistryState) : (register c r now s).2.resolutions = s.resolutions := rfl

theorem start_new_resolutions (p : StartTransferParams) (s : RegistryState)
    (e : String × Outcome)
    (he : e ∈ (startInvokeResultTransfer p s).2.resolutions)
    (hne : e ∉ s.resolutions) :
    ∃ v : NodeInvokeResult, e = (p.id, Outcome.value v) ∧ v.ok = false := by
  cases hp : mget p.id s.pendingInvokes with
  | none =>
    rw [show (startInvokeResultTransfer p s).2.resolutions = s.resolutions by
      simp [startInvokeResultTransfer, hp]] at he
    exact absurd he hne
  | some pending =>
    by_cases hn : pending.nodeId = p.nodeId
    · cases hm : mget p.id s.invokeTransfers with
      | some t =>
        rw [show (startInvokeResultTransfer p s).2 =
            resolveInvokeError p.id p.nodeId
              { code := some "INVALID_REQUEST", message := some "chunk out of order" }
              s by simp [startInvokeResultTransfer, hp, hn, hm]] at he
        exact ⟨_, resolveInvokeError_new_resolutions _ _ _ _ _ he hne, rfl⟩
      | none =>
        by_cases hb1 : p.totalBytes > p.maxInvokeResultBytes
        · rw [show (startInvokeResultTransfer p s).2 =
              resolveInvokeError p.id p.nodeId
                { code := some "INVALID_REQUEST", message := some "payload too large" }
                s by simp [startInvokeResultTransfer, hp, hn, hm, hb1]] at he
          exact ⟨_, resolveInvokeError_new_resolutions _ _ _ _ _ he hne, rfl⟩
        · by_cases hb2 : s.inflightBytes + p.totalBytes > p.maxInflightBytes
          · rw [show (startInvokeResultTransfer p s).2 =
                resolveInvokeError p.id p.nodeId
                  { code := some "INVALID_REQUEST",
                    message := some "payload too large" }
                  s by simp [startInvokeResultTransfer, hp, hn, hm, hb1, hb2]] at he
            exact ⟨_, resolveInvokeError_new_resolutions _ _ _ _ _ he hne, rfl⟩
          · rw [show (startInvokeResultTransfer p s).2.resolutions = s.resolutions by
              simp [startInvokeResultTransfer, hp, hn, hm, hb1, hb2]] at he
            exact absurd he hne
    · rw [show (startInvokeResultTransfer p s).2.resolutions = s.resolutions by
        simp [startInvokeResultTransfer, hp, hn]] at he
      exact absurd he hne

theorem chunk_new_resolutions (sha utf8 : List Nat → String) (p : ChunkParams)
    (s : RegistryState) (e : String × Outcome)
    (he : e ∈ (handleInvokeResultChunk sha utf8 p s).2.resolutions)
    (hne : e ∉ s.resolutions) :
    ∃ v : NodeInvokeResult, e = (p.id, Outcome.value v) := by
  cases hm : mget p.id s.invokeTransfers with
  | none =>
    cases hp : mget p.id s.pendingInvokes with
    | none =>
      rw [show (handleInvokeResultChunk sha utf8 p s).2.resolutions = s.resolutions by
        simp [handleInvokeResultChunk, hm, hp]] at he
      exact absurd he hne
    | some pending =>
      by_cases hn : pending.nodeId = p.nodeId
      · rw [show (handleInvokeResultChunk sha utf8 p s).2 =
            resolveInvokeError p.id p.nodeId
              { code := some "INVALID_REQUEST", message := some "unknown invoke id" }
              s by simp [handleInvokeResultChunk, hm, hp, hn]] at he
        exact ⟨_, resolveInvokeError_new_resolutions _ _ _ _ _ he hne⟩
      · rw [show (handleInvokeResultChunk sha utf8 p s).2.resolutions =
            s.resolutions by simp [handleInvokeResultChunk, hm, hp, hn]] at he
        exact absurd he hne
  | some t =>
    by_cases hn : t.nodeId = p.nodeId
    · by_cases hbr : p.index = t.nextIndex ∧ p.index < t.chunkCount
      · have hbrn : ¬ (p.index ≠ t.nextIndex ∨ p.index ≥ t.chunkCount) := by
          push_neg
          exact ⟨hbr.1, hbr.2⟩
        by_cases hlen : (p.data.length : Int) = p.bytes
        · by_cases hnb : t.totalBytes < t.bytesReceived + p.bytes
          · rw [show (handleInvokeResultChunk sha utf8 p s).2 =
                resolveInvokeError p.id p.nodeId
                  { code := some "INVALID_REQUEST",
                    message := some "chunk bytes mismatch" }
                  s by simp [handleInvokeResultChunk, hm, hn, hbrn, hlen, hnb]] at he
            exact ⟨_, resolveInvokeError_new_resolutions _ _ _ _ _ he hne⟩
          · by_cases hcomp : t.nextIndex + 1 = t.chunkCount
            · by_cases hbe : t.bytesReceived + p.bytes = t.totalBytes
              · by_cases hdg : jsToLower (sha (t.hashed ++ p.data)) = t.sha256
                · simp [handleInvokeResultChunk, hm, hn, hbrn, hlen, hnb, hcomp,
                    hbe, hdg] at he
                  exact ⟨_, handleInvokeResult_new_resolutions _ _ _ he hne⟩
                · simp [handleInvokeResultChunk, hm, hn, hbrn, hlen, hnb, hcomp,
                    hbe, hdg] at he
                  exact ⟨_, resolveInvokeError_new_resolutions _ _ _ _ _ he hne⟩
              · simp [handleInvokeResultChunk, hm, hn, hbrn, hlen, hnb, hcomp,
                  hbe] at he
                exact ⟨_, resolveInvokeError_new_resolutions _ _ _ _ _ he hne⟩
            · simp [handleInvokeResultChunk, hm, hn, hbrn, hlen, hnb,
                hcomp] at he
              exact absurd he hne
        · rw [show (handleInvokeResultChunk sha utf8 p s).2 =
              resolveInvokeError p.id p.nodeId
                { code := some "INVALID_REQUEST",
                  message := some "chunk bytes mismatch" }
                s by simp [handleInvokeResultChunk, hm, hn, hbrn, hlen]] at he
          exact ⟨_, resolveInvokeError_new_resolutions _ _ _ _ _ he hne⟩
      · rcases not_and_or.mp hbr with hb | hb
        · rw [show (handleInvokeResultChunk sha utf8 p s).2 =
              resolveInvokeError p.id p.nodeId
                { code := some "INVALID_REQUEST", message := some "chunk out of order" }
                s by simp [handleInvokeResultChunk, hm, hn, hb]] at he
          exact ⟨_, resolveInvokeError_new_resolutions _ _ _ _ _ he hne⟩
        · have hb2 : p.index ≥ t.chunkCount := not_lt.mp hb
          rw [show (handleInvokeResultChunk sha utf8 p s).2 =
              resolveInvokeError p.id p.nodeId
                { code := some "INVALID_REQUEST", message := some "chunk out of order" }
                s by simp [handleInvokeResultChunk, hm, hn, hb2]] at he
          exact ⟨_, resolveInvokeError_new_resolutions _ _ _ _ _ he hne⟩
    · cases hp : mget p.id s.pendingInvokes with
      | none =>
        rw [show (handleInvokeResultChunk sha utf8 p s).2.resolutions =
            s.resolutions by simp [handleInvokeResultChunk, hm, hp, hn]] at he
        exact absurd he hne
      | some pending =>
        by_cases hn2 : pending.nodeId = p.nodeId
        · rw [show (handleInvokeResultChunk sha utf8 p s).2 =
              resolveInvokeError p.id p.nodeId
                { code := some "INVALID_REQUEST", message := some "unknown invoke id" }
                s by simp [handleInvokeResultChunk, hm, hp, hn, hn2]] at he
          exact ⟨_, resolveInvokeError_new_resolutions _ _ _ _ _ he hne⟩
        · rw [show (handleInvokeResultChunk sha utf8 p s).2.resolutions =
              s.resolutions by simp [handleInvokeResultChunk, hm, hp, hn, hn2]] at he
          exact absurd he hne


theorem chunk_zero_new_resolutions (sha utf8 : List Nat → String) (p : ChunkParams)
    (s : RegistryState) (t : PendingInvokeTransfer) (e : String × Outcome)
    (hm : mget p.id s.invokeTransfers = some t)
    (hcc : t.chunkCount = 0) (hni : 0 ≤ t.nextIndex)
    (he : e ∈ (handleInvokeResultChunk sha utf8 p s).2.resolutions)
    (hne : e ∉ s.resolutions) :
    ∃ v : NodeInvokeResult, e = (p.id, Outcome.value v) ∧ v.ok = false := by
  by_cases hn : t.nodeId = p.nodeId
  · by_cases hx : p.index = t.nextIndex
    · have hb2 : p.index ≥ t.chunkCount := by omega
      rw [show (handleInvokeResultChunk sha utf8 p s).2 =
          resolveInvokeError p.id p.nodeId
            { code := some "INVALID_REQUEST", message := some "chunk out of order" }
            s by simp [handleInvokeResultChunk, hm, hn, hb2]] at he
      exact ⟨_, resolveInvokeError_new_resolutions _ _ _ _ _ he hne, rfl⟩
    · rw [show (handleInvokeResultChunk sha utf8 p s).2 =
          resolveInvokeError p.id p.nodeId
            { code := some "INVALID_REQUEST", message := some "chunk out of order" }
            s by simp [handleInvokeResultChunk, hm, hn, hx]] at he
      exact ⟨_, resolveInvokeError_new_resolutions _ _ _ _ _ he hne, rfl⟩
  · cases hp : mget p.id s.pendingInvokes with
    | none =>
      rw [show (handleInvokeResultChunk sha utf8 p s).2.resolutions =
          s.resolutions by simp [handleInvokeResultChunk, hm, hp, hn]] at he
      exact absurd he hne
    | some pending =>
      by_cases hn2 : pending.nodeId = p.nodeId
      · rw [show (handleInvokeResultChunk sha utf8 p s).2 =
            resolveInvokeError p.id p.nodeId
              { code := some "INVALID_REQUEST", message := some "unknown invoke id" }
              s by simp [handleInvokeResultChunk, hm, hp, hn, hn2]] at he
        exact ⟨_, resolveInvokeError_new_resolutions _ _ _ _ _ he hne, rfl⟩
      · rw [show (handleInvokeResultChunk sha utf8 p s).2.resolutions =
            s.resolutions by simp [handleInvokeResultChunk, hm, hp, hn, hn2]] at he
        exact absurd he hne

theorem abort_new_resolutions (p : AbortParams) (s : RegistryState)
    (e : String × Outcome)
    (he : e ∈ (abortInvokeResultTransfer p s).2.resolutions)
    (hne : e ∉ s.resolutions) :
    ∃ v : NodeInvokeResult, e = (p.id, Outcome.value v) ∧ v.ok = false := by
  cases hp : mget p.id s.pendingInvokes with
  | none =>
    cases hm : mget p.id s.invokeTransfers with
    | some t =>
      by_cases hn : t.nodeId = p.nodeId
      · rw [show (abortInvokeResultTransfer p s).2.resolutions = s.resolutions by
          simp [abortInvokeResultTransfer, hp, hm, hn,
            clearInvokeTransfer_resolutions]] at he
        exact absurd he hne
      · rw [show (abortInvokeResultTransfer p s).2.resolutions = s.resolutions by
          simp [abortInvokeResultTransfer, hp, hm, hn]] at he
        exact absurd he hne
    | none =>
      rw [show (abortInvokeResultTransfer p s).2.resolutions = s.resolutions by
        simp [abortInvokeResultTransfer, hp, hm]] at he
      exact absurd he hne
  | some pending =>
    by_cases hn : pending.nodeId = p.nodeId
    · have hst : (abortInvokeResultTransfer p s).2 =
          (handleInvokeResult
            { id := p.id, nodeId := p.nodeId, ok := false,
              error := some (p.error.getD
                { code := some "UNAVAILABLE",
                  message := some "node invoke aborted" }) } s).2 := by
        simp [abortInvokeResultTransfer, hp, hn]
      rw [hst] at he
      exact ⟨_, handleInvokeResult_new_resolutions _ _ _ he hne, rfl⟩
    · cases hm : mget p.id s.invokeTransfers with
      | some t =>
        by_cases hn2 : t.nodeId = p.nodeId
        · rw [show (abortInvokeResultTransfer p s).2.resolutions = s.resolutions by
            simp [abortInvokeResultTransfer, hp, hn, hm, hn2,
              clearInvokeTransfer_resolutions]] at he
          exact absurd he hne
        · rw [show (abortInvokeResultTransfer p s).2.resolutions = s.resolutions by
            simp [abortInvokeResultTransfer, hp, hn, hm, hn2]] at he
          exact absurd he hne
      | none =>
        rw [show (abortInvokeResultTransfer p s).2.resolutions = s.resolutions by
          simp [abortInvokeResultTransfer, hp, hn, hm]] at he
        exact absurd he hne


/-- C10 (amended): startInvokeResultTransfer validates nothing about
chunkCount against totalBytes — any start frame passing the byte limits
is accepted verbatim and its totalBytes counted inflight; a transfer
whose chunkCount is 0 rejects every chunk as chunk-out-of-order, so it
can never complete via chunks; and the only operation that can resolve
the owning invoke of such a transfer with ok true is a direct
handleInvokeResult carrying ok true (all other operations resolve it
only with failures, by timeout, or by rejection at unregister). -/
theorem C10_zero_chunkcount_behavior (sha utf8 : List Nat → String) :
    (∀ (p : StartTransferParams) (s : RegistryState) (pend : PendingInvoke),
      mget p.id s.pendingInvokes = some pend → pend.nodeId = p.nodeId →
      mget p.id s.invokeTransfers = none →
      ¬ p.totalBytes > p.maxInvokeResultBytes →
      ¬ s.inflightBytes + p.totalBytes > p.maxInflightBytes →
      (startInvokeResultTransfer p s).1 = InvokeTransferResult.ok ∧
      mget p.id (startInvokeResultTransfer p s).2.invokeTransfers =
        some { nodeId := p.nodeId, totalBytes := p.totalBytes,
               chunkBytes := p.chunkBytes, chunkCount := p.chunkCount,
               nextIndex := 0, bytesReceived := 0,
               sha256 := jsToLower p.sha256, hashed := [], chunks := [] } ∧
      (startInvokeResultTransfer p s).2.inflightBytes =
        s.inflightBytes + p.totalBytes) ∧
    (∀ (p : ChunkParams) (s : RegistryState) (t : PendingInvokeTransfer),
      mget p.id s.invokeTransfers = some t → t.nodeId = p.nodeId →
      t.chunkCount = 0 → 0 ≤ t.nextIndex →
      (handleInvokeResultChunk sha utf8 p s).1 =
        InvokeTransferResult.err TransferFailureReason.chunkOutOfOrder
          "chunk out of order") ∧
    (∀ (op : RegOp) (s : RegistryState) (t : PendingInvokeTransfer) (id : String)
      (r : NodeInvokeResult),
      mget id s.invokeTransfers = some t → t.chunkCount = 0 → 0 ≤ t.nextIndex →
      (id, Outcome.value r) ∈ (step sha utf8 op s).resolutions →
      (id, Outcome.value r) ∉ s.resolutions →
      r.ok = true →
      ∃ q : InvokeResultParams, op = RegOp.resultOp q ∧ q.id = id ∧ q.ok = true) := by
  refine ⟨?_, ?_, ?_⟩
  · intro p s pend hp hn hm hb1 hb2
    simp [startInvokeResultTransfer, hp, hn, hm, hb1, hb2, mget_mset_self]
  · intro p s t hm hn hcc hni
    by_cases hx : p.index = t.nextIndex
    · have hb2 : p.index ≥ t.chunkCount := by omega
      simp [handleInvokeResultChunk, hm, hn, hb2]
    · simp [handleInvokeResultChunk, hm, hn, hx]
  · intro op s t id r hm hcc hni he hne hok
    cases op with
    | regOp c rip now =>
      rw [show (step sha utf8 (RegOp.regOp c rip now) s).resolutions = s.resolutions
        from rfl] at he
      exact absurd he hne
    | unregOp connId =>
      obtain ⟨m, hm2⟩ := unregister_new_resolutions connId s _ he hne
      simp at hm2
    | invokeOp requestId p =>
      rw [show step sha utf8 (RegOp.invokeOp requestId p) s =
          (invoke requestId p s).2 from rfl, invoke_resolutions] at he
      exact absurd he hne
    | timeoutOp requestId =>
      have h2 := fireInvokeTimeout_new_resolutions requestId s _ he hne
      simp only [Prod.mk.injEq, Outcome.value.injEq] at h2
      rw [h2.2] at hok
      simp at hok
    | resultOp q =>
      have h2 := handleInvokeResult_new_resolutions q s _ he hne
      simp only [Prod.mk.injEq, Outcome.value.injEq] at h2
      refine ⟨q, rfl, h2.1.symm, ?_⟩
      rw [h2.2] at hok
      simpa using hok
    | startOp q =>
      obtain ⟨v, hv, hvok⟩ := start_new_resolutions q s _ he hne
      simp only [Prod.mk.injEq, Outcome.value.injEq] at hv
      rw [hv.2] at hok
      rw [hvok] at hok
      exact absurd hok (by simp)
    | chunkOp q =>
      by_cases hqe : q.id = id
      · subst hqe
        obtain ⟨v, hv, hvok⟩ :=
          chunk_zero_new_resolutions sha utf8 q s t _ hm hcc hni he hne
        simp only [Prod.mk.injEq, Outcome.value.injEq] at hv
        rw [hv.2] at hok
        rw [hvok] at hok
        exact absurd hok (by simp)
      · obtain ⟨v, hv⟩ := chunk_new_resolutions sha utf8 q s _ he hne
        simp only [Prod.mk.injEq, Outcome.value.injEq] at hv
        exact absurd hv.1.symm hqe
    | abortOp q =>
      obtain ⟨v, hv, hvok⟩ := abort_new_resolutions q s _ he hne
      simp only [Prod.mk.injEq, Outcome.value.injEq] at hv
      rw [hv.2] at hok
      rw [hvok] at hok
      exact absurd hok (by simp)

/-- The transfer record created by the chunkCount-0 start frame. -/
def fixZeroTransfer : PendingInvokeTransfer :=
  { nodeId := "node-1", totalBytes := 3, chunkBytes := 1, chunkCount := 0,
    nextIndex := 0, bytesReceived := 0, sha256 := "ab", hashed := [], chunks := [] }

/-- A chunk aimed at the chunkCount-0 transfer. -/
def fixZeroChunk : ChunkParams :=
  { id := "req-1", nodeId := "node-1", index := 0, data := [1], bytes := 1 }

/-- A direct ok-true result frame for the owning invoke. -/
def fixDirectResult : InvokeResultParams :=
  { id := "req-1", nodeId := "node-1", ok := true, payloadJSON := some "x" }

/-- C10 witness: the three amended statements at the concrete chunkCount-0
scenario. -/
theorem C10_zero_chunkcount_behavior_witness :
    (mget fixZeroStart.id fixPendingState.pendingInvokes =
        some { nodeId := "node-1", command := "system.run" } ∧
      ({ nodeId := "node-1", command := "system.run" } : PendingInvoke).nodeId =
        fixZeroStart.nodeId ∧
      mget fixZeroStart.id fixPendingState.invokeTransfers = none ∧
      ¬ fixZeroStart.totalBytes > fixZeroStart.maxInvokeResultBytes ∧
      ¬ fixPendingState.inflightBytes + fixZeroStart.totalBytes >
          fixZeroStart.maxInflightBytes ∧
      ((startInvokeResultTransfer fixZeroStart fixPendingState).1 =
          InvokeTransferResult.ok ∧
        mget fixZeroStart.id
            (startInvokeResultTransfer fixZeroStart fixPendingState).2.invokeTransfers =
          some { nodeId := fixZeroStart.nodeId, totalBytes := fixZeroStart.totalBytes,
                 chunkBytes := fixZeroStart.chunkBytes,
                 chunkCount := fixZeroStart.chunkCount,
                 nextIndex := 0, bytesReceived := 0,
                 sha256 := jsToLower fixZeroStart.sha256, hashed := [], chunks := [] } ∧
        (startInvokeResultTransfer fixZeroStart fixPendingState).2.inflightBytes =
          fixPendingState.inflightBytes + fixZeroStart.totalBytes)) ∧
    (mget fixZeroChunk.id fixZeroState.invokeTransfers = some fixZeroTransfer ∧
      fixZeroTransfer.nodeId = fixZeroChunk.nodeId ∧
      fixZeroTransfer.chunkCount = 0 ∧
      0 ≤ fixZeroTransfer.nextIndex ∧
      (handleInvokeResultChunk fixSha fixUtf8 fixZeroChunk fixZeroState).1 =
        InvokeTransferResult.err TransferFailureReason.chunkOutOfOrder
          "chunk out of order") ∧
    (mget "req-1" fixZeroState.invokeTransfers = some fixZeroTransfer ∧
      ("req-1", Outcome.value { ok := true, payloadJSON := some "x" }) ∈
        (step fixSha fixUtf8 (RegOp.resultOp fixDirectResult) fixZeroState).resolutions ∧
      ("req-1", Outcome.value { ok := true, payloadJSON := some "x" }) ∉
        fixZeroState.resolutions ∧
      ∃ q : InvokeResultParams, RegOp.resultOp fixDirectResult = RegOp.resultOp q ∧
        q.id = "req-1" ∧ q.ok = true) :=
  ⟨⟨by decide, by decide, by decide, by decide, by decide,
    (C10_zero_chunkcount_behavior fixSha fixUtf8).1 fixZeroStart fixPendingState
      { nodeId := "node-1", command := "system.run" }
      (by decide) (by decide) (by decide) (by decide) (by decide)⟩,
   ⟨by decide, by decide, by decide, by decide,
    (C10_zero_chunkcount_behavior fixSha fixUtf8).2.1 fixZeroChunk fixZeroState
      fixZeroTransfer (by decide) (by decide) (by decide) (by decide)⟩,
   ⟨by decide, by decide, by decide,
    (C10_zero_chunkcount_behavior fixSha fixUtf8).2.2
      (RegOp.resultOp fixDirectResult) fixZeroState fixZeroTransfer "req-1"
      { ok := true, payloadJSON := some "x" }
      (by decide) (by decide) (by decide) (by decide) (by decide) (by decide)⟩⟩

end Clawdbot
